import Mathlib

/-
  Verification development for the youtube-tools repository.

  The Go sources under internal/ytdlp and internal/utils are shallowly
  embedded below.  Go strings are byte strings and are modelled as
  `List Nat` (each element a byte value); Go int64 values are modelled
  as `Int`; Go time.Time values are modelled as `Nat` nanosecond counts
  with 0 playing the role of the zero time (time.Time.IsZero).
  External library calls (url.Parse, json.Unmarshal, the os/exec layer)
  are modelled at their interface: parsed URLs and parsed JSON documents
  are passed as structured values, and subprocess/filesystem outcomes are
  supplied by an explicit environment record.
-/

deriving instance DecidableEq for Except

namespace YTT

/-- A Go string: a list of byte values. -/
abbrev GoStr := List Nat

/-- Build a `GoStr` from an ASCII Lean string literal. -/
def gs (s : String) : GoStr := s.data.map Char.toNat

/-- All elements are genuine byte values. -/
def ByteStr (s : GoStr) : Prop := ∀ b ∈ s, b < 256

instance : DecidablePred ByteStr := fun s =>
  inferInstanceAs (Decidable (∀ b ∈ s, b < 256))

/- ---------------------------------------------------------------
   internal/utils/utils.go : ToHex / FromHex
   (hex.EncodeToString / hex.DecodeString)
   --------------------------------------------------------------- -/

/-- Lowercase hex digit for a nibble, as encoding/hex produces. -/
def hexDigitChar (k : Nat) : Nat := if k < 10 then 48 + k else 87 + k

/-- utils.ToHex: hex.EncodeToString of the bytes of the string. -/
def ToHex : GoStr → GoStr
  | [] => []
  | b :: rest => hexDigitChar (b / 16) :: hexDigitChar (b % 16) :: ToHex rest

/-- Value of one hex digit byte, as hex.DecodeString accepts
    (0-9, a-f, A-F). -/
def hexVal (c : Nat) : Option Nat :=
  if 48 ≤ c ∧ c ≤ 57 then some (c - 48)
  else if 97 ≤ c ∧ c ≤ 102 then some (c - 87)
  else if 65 ≤ c ∧ c ≤ 70 then some (c - 55)
  else none

/-- utils.FromHex: hex.DecodeString; fails on odd length or any
    non-hex-digit byte. -/
def FromHex : GoStr → Option GoStr
  | [] => some []
  | [_] => none
  | a :: b :: rest =>
    (hexVal a).bind fun x => (hexVal b).bind fun y =>
      (FromHex rest).map fun l => (16 * x + y) :: l

/- ---------------------------------------------------------------
   strings.Split(s, sep) specialised to sep = two underscores
   (byte 95), scanning left to right over non-overlapping
   occurrences, as the Go standard library does.
   --------------------------------------------------------------- -/

/-- strings.Split with separator two underscore bytes; `acc` holds the
    current field in reverse. -/
def split2 (acc : GoStr) : GoStr → List GoStr
  | [] => [acc.reverse]
  | [x] => [(x :: acc).reverse]
  | x :: y :: rest =>
    if x = 95 ∧ y = 95 then acc.reverse :: split2 [] rest
    else split2 (x :: acc) (y :: rest)

/-- No underscore byte occurs in the string. -/
def NoUS (s : GoStr) : Prop := 95 ∉ s

instance : DecidablePred NoUS := fun s => inferInstanceAs (Decidable (95 ∉ s))

/- ---------------------------------------------------------------
   fmt.Sprintf %d on int64 values, and strconv.ParseInt(s, 10, 64)
   --------------------------------------------------------------- -/

/-- ASCII decimal digits, least significant first, with explicit fuel
    (the fuel is an upper bound on the value, so it never runs out). -/
def asciiDigitsRevAux : Nat → Nat → GoStr
  | _, 0 => []
  | 0, _ + 1 => []
  | fuel + 1, n + 1 => ((n + 1) % 10 + 48) :: asciiDigitsRevAux fuel ((n + 1) / 10)

/-- ASCII decimal digits of a positive number, least significant first. -/
def asciiDigitsRev (n : Nat) : GoStr := asciiDigitsRevAux n n

/-- Decimal rendering of a natural number, as %d produces. -/
def natToDec (n : Nat) : GoStr := if n = 0 then [48] else (asciiDigitsRev n).reverse

/-- Decimal rendering of an int64 value, as %d produces. -/
def intToDec (n : Int) : GoStr :=
  if n < 0 then 45 :: natToDec (-n).toNat else natToDec n.toNat

/-- Value of an unsigned decimal digit run; fails on empty input or a
    non-digit byte. -/
def decDigitsGo (acc : Nat) : GoStr → Option Nat
  | [] => some acc
  | c :: cs => if 48 ≤ c ∧ c ≤ 57 then decDigitsGo (acc * 10 + (c - 48)) cs else none

/-- Non-empty unsigned digit run with the int64 positive cutoff. -/
def parseUnsigned64 (s : GoStr) : Option Int :=
  if s = [] then none
  else (decDigitsGo 0 s).bind fun n =>
    if n ≤ 2 ^ 63 - 1 then some (n : Int) else none

/-- Non-empty unsigned digit run with the int64 negative cutoff,
    then negated. -/
def parseNeg64 (s : GoStr) : Option Int :=
  if s = [] then none
  else (decDigitsGo 0 s).bind fun n =>
    if n ≤ 2 ^ 63 then some (-(n : Int)) else none

/-- strconv.ParseInt(s, 10, 64): optional sign, non-empty digit run,
    value must fit in int64. -/
def parseInt64 : GoStr → Option Int
  | [] => none
  | c :: rest =>
    if c = 43 then parseUnsigned64 rest
    else if c = 45 then parseNeg64 rest
    else parseUnsigned64 (c :: rest)

/- ---------------------------------------------------------------
   internal/ytdlp/ytdlp.go : the format token codec.

   buildAudioFormatID renders "a__<ext>__<asr>__<formatID>" and hex
   encodes it; buildVideoFormatID renders
   "v__<ext>__<resolution>__<vFormatID>(+<aFormatID>)?" likewise.
   ParseAudioFormatID / ParseVideoFormatID reverse the hex transform,
   split on "__", and check the field count and the kind tag.
   --------------------------------------------------------------- -/

inductive FmtErr where
  | invalidFormatID
  | invalidAsr
  deriving DecidableEq

/-- ytdlp.buildAudioFormatID: utils.ToHex of
    fmt.Sprintf("a__%s__%d__%s", ext, asr, formatID). -/
def buildAudioFormatID (ext : GoStr) (asr : Int) (formatID : GoStr) : GoStr :=
  ToHex (gs "a__" ++ ext ++ gs "__" ++ intToDec asr ++ gs "__" ++ formatID)

/-- ytdlp.buildVideoFormatID: utils.ToHex of
    fmt.Sprintf("v__%s__%s__%s%s", ext, resolution, vFormatID, a)
    where a is "+" plus aFormatID when aFormatID is non-empty. -/
def buildVideoFormatID (ext resolution vFormatID aFormatID : GoStr) : GoStr :=
  let a := if aFormatID = [] then [] else gs "+" ++ aFormatID
  ToHex (gs "v__" ++ ext ++ gs "__" ++ resolution ++ gs "__" ++ vFormatID ++ a)

/-- ytdlp.ParseAudioFormatID. -/
def ParseAudioFormatID (formatID : GoStr) : Except FmtErr (GoStr × Int × GoStr) :=
  match FromHex formatID with
  | none => .error .invalidFormatID
  | some s =>
    match split2 [] s with
    | [p0, p1, p2, p3] =>
      if p0 = gs "a" then
        match parseInt64 p2 with
        | some asr => .ok (p1, asr, p3)
        | none => .error .invalidAsr
      else .error .invalidFormatID
    | _ => .error .invalidFormatID

/-- ytdlp.ParseVideoFormatID. -/
def ParseVideoFormatID (formatID : GoStr) : Except FmtErr (GoStr × GoStr × GoStr) :=
  match FromHex formatID with
  | none => .error .invalidFormatID
  | some s =>
    match split2 [] s with
    | [p0, p1, p2, p3] =>
      if p0 = gs "v" then .ok (p1, p2, p3)
      else .error .invalidFormatID
    | _ => .error .invalidFormatID

/-- ytdlp.IsVideoFormatID: FromHex succeeds and the decoded string
    starts with the three bytes of "v__". -/
def IsVideoFormatID (formatID : GoStr) : Bool :=
  match FromHex formatID with
  | none => false
  | some (118 :: 95 :: 95 :: _) => true
  | some _ => false

/- ---------------------------------------------------------------
   internal/ytdlp/ytdlp.go : CheckUrl.

   url.Parse is an external library call; its result is modelled as a
   structured URL value (scheme, host, path, parsed query).  Query()
   .Get(k) returns the first value for key k, or the empty string.
   --------------------------------------------------------------- -/

structure URL where
  scheme : GoStr
  host : GoStr
  path : GoStr
  query : List (GoStr × GoStr)
  deriving DecidableEq

/-- url.Values.Get: first value associated with the key, else empty. -/
def queryGet (q : List (GoStr × GoStr)) (k : GoStr) : GoStr :=
  match q.find? (fun p => p.1 == k) with
  | some p => p.2
  | none => []

inductive UrlErr where
  | badScheme
  | badHost
  | badPath
  | missingVideoID
  deriving DecidableEq

/-- ytdlp.CheckUrl on an already-parsed URL: default empty/http scheme
    to https and reject other schemes; canonicalise the three accepted
    hosts to www.youtube.com and reject the rest; require path /watch
    and a non-empty v query parameter.  Returns the canonical URL and
    the video id. -/
def CheckUrl (u : URL) : Except UrlErr (URL × GoStr) :=
  if u.scheme = [] ∨ u.scheme = gs "http" ∨ u.scheme = gs "https" then
    let u1 : URL := { u with scheme := gs "https" }
    if u1.host = gs "youtube.com" ∨ u1.host = gs "m.youtube.com" ∨
        u1.host = gs "www.youtube.com" then
      let u2 : URL := { u1 with host := gs "www.youtube.com" }
      if u2.path = gs "/watch" then
        let videoID := queryGet u2.query (gs "v")
        if videoID = [] then .error .missingVideoID
        else .ok (u2, videoID)
      else .error .badPath
    else .error .badHost
  else .error .badScheme

/- ---------------------------------------------------------------
   internal/ytdlp/ytdlp.go : the download task registry and executor.

   The downloads map guarded by the RWMutex is modelled as an
   association list; the sequential model collapses the
   read-lock/write-lock double check of StartDownload.  time.Now()
   results are supplied explicitly as Nat parameters (0 is the zero
   time).  The context cancel function of a task is modelled by the
   flag hasCancel (task.Cancel != nil).
   --------------------------------------------------------------- -/

inductive TaskState where
  | pending
  | downloading
  | completed
  | failed
  deriving DecidableEq

structure DownloadTask where
  id : GoStr
  url : URL
  format : GoStr
  state : TaskState
  progress : Int
  speed : GoStr
  eta : GoStr
  downloadUrl : GoStr
  error : GoStr
  startTime : Nat
  endTime : Nat
  hasCancel : Bool
  deriving DecidableEq

abbrev Registry := List (GoStr × DownloadTask)

def lookupTask (reg : Registry) (taskID : GoStr) : Option DownloadTask :=
  (reg.find? (fun p => p.1 == taskID)).map (fun p => p.2)

/-- In-place mutation of the task stored under a key. -/
def updateTask (reg : Registry) (taskID : GoStr) (t : DownloadTask) : Registry :=
  reg.map (fun p => if p.1 == taskID then (p.1, t) else p)

/-- The string fmt.Sprintf("%s/video/%s/%s.%s", videoID, resolution,
    videoID, ext) respectively fmt.Sprintf("%s/audio/%d/%s.%s",
    videoID, asr, videoID, ext), with the fields taken from the parsed
    format token.  Parse errors are discarded in the source (the Go
    multi-value returns hand back zero values), which this mirrors.
    The same rendering is duplicated at the two Sprintf call sites in
    getTaskId and runDownload. -/
def taskKeyString (videoID : GoStr) (formatID : GoStr) : GoStr :=
  if IsVideoFormatID formatID then
    let er : GoStr × GoStr :=
      match ParseVideoFormatID formatID with
      | .ok (e, r, _) => (e, r)
      | .error _ => ([], [])
    videoID ++ gs "/video/" ++ er.2 ++ gs "/" ++ videoID ++ gs "." ++ er.1
  else
    let ea : GoStr × Int :=
      match ParseAudioFormatID formatID with
      | .ok (e, a, _) => (e, a)
      | .error _ => ([], 0)
    videoID ++ gs "/audio/" ++ intToDec ea.2 ++ gs "/" ++ videoID ++ gs "." ++ ea.1

/-- ytdlp.getTaskId. -/
def getTaskId (u : URL) (formatID : GoStr) : Except UrlErr GoStr :=
  match CheckUrl u with
  | .error e => .error e
  | .ok (_, videoID) => .ok (ToHex (taskKeyString videoID formatID))

/-- ytdlp.StartDownload: compute the task id; if a task with that id is
    registered (in any state) return its id unchanged, otherwise insert
    a fresh pending task.  Returns the task id and the updated
    registry. -/
def StartDownload (now : Nat) (reg : Registry) (u : URL) (formatID : GoStr) :
    Except UrlErr (GoStr × Registry) :=
  match getTaskId u formatID with
  | .error e => .error e
  | .ok taskID =>
    match lookupTask reg taskID with
    | some _ => .ok (taskID, reg)
    | none =>
      let task : DownloadTask :=
        { id := taskID
          url := u
          format := formatID
          state := .pending
          progress := 0
          speed := gs "0 B/s"
          eta := gs "unknown"
          downloadUrl := []
          error := []
          startTime := now
          endTime := 0
          hasCancel := true }
      .ok (taskID, (taskID, task) :: reg)

inductive RegErr where
  | taskNotFound
  deriving DecidableEq

/-- ytdlp.CancelDownload.  The Bool records whether the context cancel
    function was invoked. -/
def CancelDownload (now : Nat) (reg : Registry) (taskID : GoStr) :
    Except RegErr (Registry × Bool) :=
  match lookupTask reg taskID with
  | none => .error .taskNotFound
  | some task =>
    if task.state = .downloading ∧ task.hasCancel then
      let task' := { task with
        state := .failed
        error := gs "Download cancelled by user"
        endTime := now }
      .ok (updateTask reg taskID task', true)
    else .ok (reg, false)

/-- 10 * time.Minute in nanoseconds. -/
def tenMinutes : Nat := 600000000000

/-- ytdlp.cleanupCompletedTasks: delete every task that is completed or
    failed, has a non-zero end time, and ended more than ten minutes
    before now. -/
def cleanupCompletedTasks (now : Nat) (reg : Registry) : Registry :=
  reg.filter fun p =>
    !decide ((p.2.state = .completed ∨ p.2.state = .failed) ∧
      p.2.endTime ≠ 0 ∧ now - p.2.endTime > tenMinutes)

/-- Outcomes of the external effects performed by one runDownload
    execution, in program order. -/
structure ExecEnv where
  now : Nat
  artifactExists : Bool
  stdoutPipeOk : Bool
  stderrPipeOk : Bool
  startOk : Bool
  waitErr : Bool
  ctxCancelled : Bool
  moveOk : Bool
  deriving DecidableEq

/-- ytdlp.getDownloadUrl. -/
def getDownloadUrl (s3Prefix s3Location : GoStr) : GoStr := s3Prefix ++ s3Location

/-- ytdlp.runDownload for one task, sequentially: hex-decode the task
    id (failure stamps a failed terminal state); short-circuit to
    completed when the artifact already exists; otherwise enter
    downloading and run the subprocess.  Pipe-setup and start failures
    set failed and return early WITHOUT stamping the end time, as the
    source does; wait errors distinguish cancellation; a relocation
    failure after a successful wait sets failed and also returns
    early without stamping; the success path and the wait-error paths
    fall through to the final end-time stamp. -/
def runDownload (s3Prefix : GoStr) (env : ExecEnv) (task : DownloadTask) :
    DownloadTask :=
  match FromHex task.id with
  | none =>
    { task with
      state := .failed
      error := gs "invalid hex"
      endTime := env.now }
  | some decodedTaskID =>
    if env.artifactExists then
      { task with
        state := .completed
        endTime := env.now
        progress := 100
        speed := gs "0 B/s"
        eta := gs "00:00"
        downloadUrl := getDownloadUrl s3Prefix decodedTaskID }
    else
      let t1 := { task with state := TaskState.downloading }
      let videoID : GoStr :=
        match CheckUrl task.url with
        | .ok (_, v) => v
        | .error _ => []
      let s3Location := taskKeyString videoID task.format
      if !env.stdoutPipeOk then
        { t1 with state := .failed, error := gs "Failed to start download" }
      else if !env.stderrPipeOk then
        { t1 with state := .failed, error := gs "Failed to start download" }
      else if !env.startOk then
        { t1 with state := .failed, error := gs "Failed to start download" }
      else if env.waitErr then
        if env.ctxCancelled then
          { t1 with
            state := .failed
            error := gs "Download cancelled by user"
            endTime := env.now }
        else
          { t1 with
            state := .failed
            error := gs "Download failed"
            endTime := env.now }
      else if !env.moveOk then
        { t1 with
          state := .failed
          error := gs "Failed to move file to S3 location" }
      else
        { t1 with
          state := .completed
          progress := 100
          speed := gs "0 B/s"
          eta := gs "00:00"
          downloadUrl := getDownloadUrl s3Prefix s3Location
          endTime := env.now }

/- ---------------------------------------------------------------
   Lemmas and theorems.
   --------------------------------------------------------------- -/

/- ---------------------------------------------------------------
   internal/ytdlp/ytdlp.go : metadata extraction.

   json.Unmarshal output (map[string]interface{}) is modelled by GoVal:
   JSON strings, numbers, arrays, objects and null.  JSON numbers
   decode to float64 in Go; this model covers the whole-valued numbers
   (asr, abr, vbr, fps, filesize, width, height are integral in the
   tool output), so a number is carried as an Int, and the float64 to
   int64 truncation of getInt64Value is the identity on them.
   --------------------------------------------------------------- -/

inductive GoVal where
  | vstr (s : GoStr)
  | vnum (n : Int)
  | varr (xs : List GoVal)
  | vobj (fields : List (GoStr × GoVal))
  | vnull

/-- One format object from the formats array. -/
abbrev FmtMap := List (GoStr × GoVal)

/-- Go map lookup data[key]. -/
def lookupGo (data : FmtMap) (k : GoStr) : Option GoVal :=
  (data.find? (fun p => p.1 == k)).map (fun p => p.2)

/-- ytdlp.getStringValue: the value if it is a string, else "". -/
def getStringValue (data : FmtMap) (k : GoStr) : GoStr :=
  match lookupGo data k with
  | some (.vstr s) => s
  | _ => []

/-- ytdlp.getIntValue: numeric value, or a string parsed with
    strconv.Atoi, else 0. -/
def getIntValue (data : FmtMap) (k : GoStr) : Int :=
  match lookupGo data k with
  | some (.vnum n) => n
  | some (.vstr s) =>
    match parseInt64 s with
    | some i => i
    | none => 0
  | _ => 0

/-- ytdlp.getInt64Value: numeric value, or a string parsed with
    strconv.ParseInt, else 0. -/
def getInt64Value (data : FmtMap) (k : GoStr) : Int :=
  match lookupGo data k with
  | some (.vnum n) => n
  | some (.vstr s) =>
    match parseInt64 s with
    | some i => i
    | none => 0
  | _ => 0

/-- ytdlp.getFloat64Value: numeric value, or a string parsed with
    strconv.ParseFloat, else 0 (whole-valued numbers in this model). -/
def getFloat64Value (data : FmtMap) (k : GoStr) : Int :=
  match lookupGo data k with
  | some (.vnum n) => n
  | some (.vstr s) =>
    match parseInt64 s with
    | some i => i
    | none => 0
  | _ => 0

/-- ytdlp.getStringArrayValue: the string items of an array value. -/
def getStringArrayValue (data : FmtMap) (k : GoStr) : List GoStr :=
  match lookupGo data k with
  | some (.varr xs) =>
    xs.filterMap (fun it =>
      match it with
      | .vstr s => some s
      | _ => none)
  | _ => []

/-- Maximal leading digit run and the remainder. -/
def digitsTake : GoStr → (GoStr × GoStr)
  | [] => ([], [])
  | c :: cs =>
    if 48 ≤ c ∧ c ≤ 57 then
      let dr := digitsTake cs
      (c :: dr.1, dr.2)
    else ([], c :: cs)

/-- One attempt of the regular expression (digits x digits | digits p)
    anchored at the start of s, first alternative first, greedy digit
    runs (regexp.FindStringSubmatch building block). -/
def resAt (s : GoStr) : Option GoStr :=
  let d1r := digitsTake s
  if d1r.1 = [] then none
  else
    match d1r.2 with
    | 120 :: r2 =>
      let d2r := digitsTake r2
      if d2r.1 = [] then none else some (d1r.1 ++ 120 :: d2r.1)
    | 112 :: _ => some (d1r.1 ++ [112])
    | _ => none

/-- Leftmost match of the resolution pattern, scanning start positions
    left to right. -/
def findResMatch : GoStr → Option GoStr
  | [] => none
  | c :: cs =>
    match resAt (c :: cs) with
    | some m => some m
    | none => findResMatch cs

/-- ytdlp.getResolution: the resolution string field if non-empty,
    else width x height if both positive, else the first resolution
    pattern found in the format description, else unknown. -/
def getResolution (data : FmtMap) : GoStr :=
  let res :=
    match lookupGo data (gs "resolution") with
    | some (.vstr s) => s
    | _ => []
  if res ≠ [] then res
  else
    let width := getIntValue data (gs "width")
    let height := getIntValue data (gs "height")
    if width > 0 ∧ height > 0 then intToDec width ++ 120 :: intToDec height
    else
      match lookupGo data (gs "format") with
      | some (.vstr f) =>
        match findResMatch f with
        | some m => m
        | none => gs "unknown"
      | _ => gs "unknown"

/-- Does s start with p. -/
def leadsWith : GoStr → GoStr → Bool
  | [], _ => true
  | _ :: _, [] => false
  | p :: ps, c :: cs => (p == c) && leadsWith ps cs

/-- strings.Contains(s, sub). -/
def containsSub (sub : GoStr) : GoStr → Bool
  | [] => leadsWith sub []
  | c :: cs => leadsWith sub (c :: cs) || containsSub sub cs

/-- ytdlp.isAudioFormatMapBetter: abr first, then filesize, true on a
    full tie. -/
def isAudioFormatMapBetter (a b : FmtMap) : Bool :=
  let aAbr := getInt64Value a (gs "abr")
  let bAbr := getInt64Value b (gs "abr")
  if aAbr ≠ bAbr then decide (aAbr > bAbr)
  else
    let aFs := getInt64Value a (gs "filesize")
    let bFs := getInt64Value b (gs "filesize")
    if aFs ≠ bFs then decide (aFs > bFs)
    else true

/-- ytdlp.isVideoFormatMapBetter: vbr first, then fps, then filesize,
    true on a full tie. -/
def isVideoFormatMapBetter (a b : FmtMap) : Bool :=
  let aVbr := getInt64Value a (gs "vbr")
  let bVbr := getInt64Value b (gs "vbr")
  if aVbr ≠ bVbr then decide (aVbr > bVbr)
  else
    let aFps := getFloat64Value a (gs "fps")
    let bFps := getFloat64Value b (gs "fps")
    if aFps ≠ bFps then decide (aFps > bFps)
    else
      let aFs := getInt64Value a (gs "filesize")
      let bFs := getInt64Value b (gs "filesize")
      if aFs ≠ bFs then decide (aFs > bFs)
      else true

/-- Buckets: one retained format object per discriminator key
    (audioByAsr / videoByResolution in the source). -/
abbrev Buckets := List (GoStr × FmtMap)

def lookupB (m : Buckets) (k : GoStr) : Option FmtMap :=
  (m.find? (fun p => p.1 == k)).map (fun p => p.2)

/-- Go map assignment m[k] = v: replace the entry if the key is
    present, else add it. -/
def updateBucket (m : Buckets) (k : GoStr) (v : FmtMap) : Buckets :=
  if (m.find? (fun p => p.1 == k)).isSome then
    m.map (fun p => if p.1 == k then (p.1, v) else p)
  else m ++ [(k, v)]

/-- The conditions under which the loop of extractOptimalFormats
    treats a format object as a pure-audio candidate: not a
    storyboard, vcodec none, acodec present, non-zero asr. -/
def audioCand (f : FmtMap) : Bool :=
  !containsSub (gs "storyboard") (getStringValue f (gs "format_note")) &&
  (getStringValue f (gs "vcodec")) == gs "none" &&
  !((getStringValue f (gs "acodec")) == gs "none") &&
  !((getStringValue f (gs "acodec")) == []) &&
  !(getInt64Value f (gs "asr") == 0)

/-- The asr bucket key fmt.Sprintf of the asr value. -/
def audioKey (f : FmtMap) : GoStr := intToDec (getInt64Value f (gs "asr"))

/-- The pure-video candidate conditions: not a storyboard, acodec
    none, vcodec present. -/
def videoCand (f : FmtMap) : Bool :=
  !containsSub (gs "storyboard") (getStringValue f (gs "format_note")) &&
  (getStringValue f (gs "acodec")) == gs "none" &&
  !((getStringValue f (gs "vcodec")) == gs "none") &&
  !((getStringValue f (gs "vcodec")) == [])

/-- The resolution bucket key (unknown when empty). -/
def videoKey (f : FmtMap) : GoStr :=
  let r := getResolution f
  if r = [] then gs "unknown" else r

/-- Keep-the-better-one insertion into a bucket map. -/
def bucketStep (better : FmtMap → FmtMap → Bool) (key : FmtMap → GoStr)
    (m : Buckets) (f : FmtMap) : Buckets :=
  match lookupB m (key f) with
  | some existing => if better f existing then updateBucket m (key f) f else m
  | none => m ++ [(key f, f)]

/-- The audio half of one iteration of the extractOptimalFormats
    loop. -/
def stepAudio (aMap : Buckets) (fRaw : GoVal) : Buckets :=
  match fRaw with
  | .vobj f => if audioCand f then bucketStep isAudioFormatMapBetter audioKey aMap f else aMap
  | _ => aMap

/-- The video half of one iteration of the extractOptimalFormats
    loop. -/
def stepVideo (vMap : Buckets) (fRaw : GoVal) : Buckets :=
  match fRaw with
  | .vobj f => if videoCand f then bucketStep isVideoFormatMapBetter videoKey vMap f else vMap
  | _ => vMap

/-- One iteration of the extractOptimalFormats loop over the two
    bucket maps. -/
def stepFormat (maps : Buckets × Buckets) (fRaw : GoVal) : Buckets × Buckets :=
  (stepAudio maps.1 fRaw, stepVideo maps.2 fRaw)

/-- The formats array of the raw metadata, if it is an array. -/
def formatsOf (rawInfo : FmtMap) : List GoVal :=
  match lookupGo rawInfo (gs "formats") with
  | some (.varr xs) => xs
  | _ => []

/-- The audioByAsr map after the loop. -/
def audioByAsr (fmts : List GoVal) : Buckets := (fmts.foldl stepFormat ([], [])).1

/-- The videoByResolution map after the loop. -/
def videoByResolution (fmts : List GoVal) : Buckets := (fmts.foldl stepFormat ([], [])).2

structure AudioFormat where
  formatID : GoStr
  ext : GoStr
  asr : Int
  deriving DecidableEq

structure VideoFormat where
  formatID : GoStr
  ext : GoStr
  resolution : GoStr
  deriving DecidableEq

def toAudioFormat (f : FmtMap) : AudioFormat :=
  { formatID := getStringValue f (gs "format_id")
    ext := getStringValue f (gs "ext")
    asr := getInt64Value f (gs "asr") }

def toVideoFormat (f : FmtMap) : VideoFormat :=
  { formatID := getStringValue f (gs "format_id")
    ext := getStringValue f (gs "ext")
    resolution := getResolution f }

/-- ytdlp.extractOptimalFormats. -/
def extractOptimalFormats (rawInfo : FmtMap) :
    List AudioFormat × List VideoFormat :=
  let fmts := formatsOf rawInfo
  ((audioByAsr fmts).map (fun p => toAudioFormat p.2),
   (videoByResolution fmts).map (fun p => toVideoFormat p.2))

/- ---------------------------------------------------------------
   internal/ytdlp/ytdlp.go : GetVideoInfo and the metadata cache.

   The subprocess output is modelled by its parse status: a JSON
   document or malformed text; the cache file at
   contentId/contentId.json holds such a document when present.
   --------------------------------------------------------------- -/

inductive RawDoc where
  | jsonVal (v : GoVal)
  | malformed (tag : Nat)

/-- External outcomes seen by one metadata fetch: the cache file
    content if present and readable, and the subprocess result. -/
structure FetchEnv where
  cached : Option RawDoc
  subprocess : Except Unit RawDoc

inductive MetaErr where
  | invalidUrl
  | subprocessFailed
  | unparseableJson
  deriving DecidableEq

/-- ytdlp.doExecuteYtdlpCommand: cache hit returns the cached content
    without running the subprocess; otherwise run it, and only on
    success write the raw output to the cache.  Returns the result and
    the cache state afterwards. -/
def doExecuteYtdlpCommand (env : FetchEnv) : Except Unit RawDoc × Option RawDoc :=
  match env.cached with
  | some doc => (.ok doc, some doc)
  | none =>
    match env.subprocess with
    | .error e => (.error e, none)
    | .ok doc => (.ok doc, some doc)

/-- ytdlp.executeYtdlpCommand: CheckUrl, then the cached or fresh
    subprocess output (the singleflight grouping collapses in the
    sequential model). -/
def executeYtdlpCommand (u : URL) (env : FetchEnv) :
    Except MetaErr RawDoc × Option RawDoc :=
  match CheckUrl u with
  | .error _ => (.error .invalidUrl, env.cached)
  | .ok _ =>
    match doExecuteYtdlpCommand env with
    | (.error _, c) => (.error .subprocessFailed, c)
    | (.ok d, c) => (.ok d, c)

/-- json.Unmarshal into map[string]interface{}: succeeds on an object
    document (and on null, leaving a nil map); fails on malformed text
    and on non-object documents. -/
def unmarshalObj : RawDoc → Option FmtMap
  | .jsonVal (.vobj fs) => some fs
  | .jsonVal .vnull => some []
  | _ => none

structure AudioFormatGroup where
  ext : GoStr
  formats : List AudioFormat
  deriving DecidableEq

structure VideoFormatGroup where
  ext : GoStr
  formats : List VideoFormat
  deriving DecidableEq

structure VideoInfo where
  id : GoStr
  webpageURL : GoStr
  title : GoStr
  description : GoStr
  duration : Int
  thumbnail : GoStr
  viewCount : Int
  commentCount : Int
  likeCount : Int
  uploadDate : GoStr
  uploader : GoStr
  categories : List GoStr
  tags : List GoStr
  channelName : GoStr
  channelURL : GoStr
  channelFollowerCount : Int
  audio : List AudioFormatGroup
  video : List VideoFormatGroup
  deriving DecidableEq

/-- The configured audio and video container extensions. -/
structure YtConfig where
  audioFormats : List GoStr
  videoFormats : List GoStr

/-- The audio-group loop of GetVideoInfo: for each configured audio
    extension, one group of tokens over all optimal audio formats,
    while tracking the highest sample rate and its source format id
    (maxAsr / maxAFormatId). -/
def buildAudioGroups (audioFormats : List GoStr) (optimalAudio : List AudioFormat) :
    List AudioFormatGroup × Int × GoStr :=
  audioFormats.foldl
    (fun st afe =>
      let inner :=
        optimalAudio.foldl
          (fun st2 af =>
            let fs := st2.1 ++ [{ formatID := buildAudioFormatID afe af.asr af.formatID
                                  ext := afe
                                  asr := af.asr }]
            if af.asr > st2.2.1 then (fs, af.asr, af.formatID)
            else (fs, st2.2.1, st2.2.2))
          ([], st.2.1, st.2.2)
      let groups :=
        if inner.1 ≠ [] then st.1 ++ [{ ext := afe, formats := inner.1 }] else st.1
      (groups, inner.2.1, inner.2.2))
    ([], 0, [])

/-- The video-group loop of GetVideoInfo: for each configured video
    extension, one group pairing every optimal video format with the
    highest-sample-rate audio source id. -/
def buildVideoGroups (videoFormats : List GoStr) (optimalVideo : List VideoFormat)
    (maxAFormatId : GoStr) : List VideoFormatGroup :=
  videoFormats.foldl
    (fun acc vfe =>
      let formats := optimalVideo.map (fun vf =>
        { formatID := buildVideoFormatID vfe vf.resolution vf.formatID maxAFormatId
          ext := vfe
          resolution := vf.resolution })
      if formats ≠ [] then acc ++ [{ ext := vfe, formats := formats }] else acc)
    []

/-- ytdlp.GetVideoInfo: fetch (cache or subprocess), unmarshal, then
    extract the flat fields with zero-value defaults and build the
    format groups.  The second component is the cache state after the
    call. -/
def GetVideoInfo (cfg : YtConfig) (u : URL) (env : FetchEnv) :
    Except MetaErr VideoInfo × Option RawDoc :=
  match executeYtdlpCommand u env with
  | (.error e, c) => (.error e, c)
  | (.ok doc, c) =>
    match unmarshalObj doc with
    | none => (.error .unparseableJson, c)
    | some rawInfo =>
      let pair := extractOptimalFormats rawInfo
      let ag := buildAudioGroups cfg.audioFormats pair.1
      let followers :=
        let cf := getInt64Value rawInfo (gs "channel_follower_count")
        if cf = 0 then getInt64Value rawInfo (gs "subscriber_count") else cf
      let info : VideoInfo :=
        { id := getStringValue rawInfo (gs "id")
          webpageURL := getStringValue rawInfo (gs "webpage_url")
          title := getStringValue rawInfo (gs "title")
          description := getStringValue rawInfo (gs "description")
          duration := getIntValue rawInfo (gs "duration")
          thumbnail := getStringValue rawInfo (gs "thumbnail")
          viewCount := getInt64Value rawInfo (gs "view_count")
          commentCount := getInt64Value rawInfo (gs "comment_count")
          likeCount := getInt64Value rawInfo (gs "like_count")
          uploadDate := getStringValue rawInfo (gs "upload_date")
          uploader := getStringValue rawInfo (gs "uploader")
          categories := getStringArrayValue rawInfo (gs "categories")
          tags := getStringArrayValue rawInfo (gs "tags")
          channelName := getStringValue rawInfo (gs "channel")
          channelURL := getStringValue rawInfo (gs "channel_url")
          channelFollowerCount := followers
          audio := ag.1
          video := buildVideoGroups cfg.videoFormats pair.2 ag.2.2 }
      (.ok info, c)

/- ---------------------------------------------------------------
   Specification-side notions used to state the variant-selection
   properties: the candidate formats of each bucket, the ranking
   orders the tie-break induces, and the one-at-a-time choice
   function the loop implements per bucket.
   --------------------------------------------------------------- -/

/-- The pure-audio candidates of the formats array, in order. -/
def audioCands (fmts : List GoVal) : List FmtMap :=
  (fmts.filterMap (fun v =>
    match v with
    | GoVal.vobj f => some f
    | _ => none)).filter audioCand

/-- The pure-video candidates of the formats array, in order. -/
def videoCands (fmts : List GoVal) : List FmtMap :=
  (fmts.filterMap (fun v =>
    match v with
    | GoVal.vobj f => some f
    | _ => none)).filter videoCand

/-- Keep the better of the current survivor and a new candidate (the
    per-bucket effect of one loop iteration). -/
def pickBetter (better : FmtMap → FmtMap → Bool) :
    Option FmtMap → FmtMap → Option FmtMap
  | none, f => some f
  | some b, f => if better f b then some f else some b

/-- Lexicographic order on pairs. -/
def pairLe (x y : Int × Int) : Prop := x.1 < y.1 ∨ (x.1 = y.1 ∧ x.2 ≤ y.2)

instance (x y : Int × Int) : Decidable (pairLe x y) := by
  unfold pairLe; infer_instance

/-- Lexicographic order on triples. -/
def tripLe (x y : Int × Int × Int) : Prop :=
  x.1 < y.1 ∨ (x.1 = y.1 ∧ pairLe x.2 y.2)

instance (x y : Int × Int × Int) : Decidable (tripLe x y) := by
  unfold tripLe; infer_instance

/-- The fields the audio tie-break compares: bitrate then file size. -/
def audioRank (f : FmtMap) : Int × Int :=
  (getInt64Value f (gs "abr"), getInt64Value f (gs "filesize"))

/-- Audio ranking order. -/
def audioLe (a b : FmtMap) : Prop := pairLe (audioRank a) (audioRank b)

instance (a b : FmtMap) : Decidable (audioLe a b) := by
  unfold audioLe; infer_instance

/-- The fields the video tie-break compares: bitrate, then frame
    rate, then file size. -/
def videoRank (f : FmtMap) : Int × Int × Int :=
  (getInt64Value f (gs "vbr"), getFloat64Value f (gs "fps"),
   getInt64Value f (gs "filesize"))

/-- Video ranking order. -/
def videoLe (a b : FmtMap) : Prop := tripLe (videoRank a) (videoRank b)

instance (a b : FmtMap) : Decidable (videoLe a b) := by
  unfold videoLe; infer_instance

/-- A pure-audio format at 44100 Hz, 128 kbit, source id 139. -/
def tiedAudioA : FmtMap :=
  [(gs "format_id", .vstr (gs "139")), (gs "ext", .vstr (gs "m4a")),
   (gs "vcodec", .vstr (gs "none")), (gs "acodec", .vstr (gs "mp4a.40.2")),
   (gs "asr", .vnum 44100), (gs "abr", .vnum 128), (gs "filesize", .vnum 1000)]

/-- The same ranking fields with source id 140: a full tie with
    tiedAudioA. -/
def tiedAudioB : FmtMap :=
  [(gs "format_id", .vstr (gs "140")), (gs "ext", .vstr (gs "m4a")),
   (gs "vcodec", .vstr (gs "none")), (gs "acodec", .vstr (gs "mp4a.40.2")),
   (gs "asr", .vnum 44100), (gs "abr", .vnum 128), (gs "filesize", .vnum 1000)]

/-- A raw metadata document whose formats array holds the two tied
    audio formats, first 139 then 140. -/
def tiedRaw : FmtMap :=
  [(gs "formats", .varr [.vobj tiedAudioA, .vobj tiedAudioB])]

/- ---------------------------------------------------------------
   Concrete values used by witnesses and counterexamples.
   --------------------------------------------------------------- -/

/-- A canonical watch URL with video id abc. -/
def watchUrl : URL :=
  { scheme := gs "https"
    host := gs "www.youtube.com"
    path := gs "/watch"
    query := [(gs "v", gs "abc")] }

/-- The same reference through the bare-domain alias with no scheme. -/
def aliasUrl : URL :=
  { scheme := []
    host := gs "youtube.com"
    path := gs "/watch"
    query := [(gs "v", gs "abc")] }

/-- An encoded audio token for (m4a, 44100, source id 140). -/
def audioTok : GoStr := buildAudioFormatID (gs "m4a") 44100 (gs "140")

/-- audioTok with its final hex character changed from 0 to 1: still a
    valid hex string. -/
def audioTokCorrupt : GoStr := audioTok.set 35 49

/-- An encoded video token for (mp4, 1920x1080, 137 paired with 140). -/
def videoTok : GoStr := buildVideoFormatID (gs "mp4") (gs "1920x1080") (gs "137") (gs "140")

/-- Number of positions where two equal-length strings differ. -/
def countDiff (a b : GoStr) : Nat :=
  ((a.zip b).filter (fun p => p.1 != p.2)).length

/-- The task id StartDownload derives for watchUrl and audioTok. -/
def tid0 : GoStr := ToHex (gs "abc/audio/44100/abc.m4a")

/-- The fresh pending task StartDownload inserts for watchUrl and
    audioTok at time 3. -/
def task0 : DownloadTask :=
  { id := tid0
    url := watchUrl
    format := audioTok
    state := .pending
    progress := 0
    speed := gs "0 B/s"
    eta := gs "unknown"
    downloadUrl := []
    error := []
    startTime := 3
    endTime := 0
    hasCancel := true }

/-- The registry after that first StartDownload. -/
def reg0 : Registry := [(tid0, task0)]

/-- An execution whose stdout pipe setup fails. -/
def envPipeFail : ExecEnv :=
  { now := 5
    artifactExists := false
    stdoutPipeOk := false
    stderrPipeOk := true
    startOk := true
    waitErr := false
    ctxCancelled := false
    moveOk := true }

/-- An execution whose artifact relocation fails after a successful
    subprocess run. -/
def envMoveFail : ExecEnv := { envPipeFail with stdoutPipeOk := true, moveOk := false }

/-- A fully successful execution. -/
def envGood : ExecEnv := { envPipeFail with stdoutPipeOk := true }

/-- task0 mid-download. -/
def dlTask : DownloadTask := { task0 with state := .downloading }

/-- task0 completed at time 9. -/
def doneTask : DownloadTask := { task0 with state := .completed, endTime := 9 }

/-- A failed task whose end time was never stamped, long after its
    start. -/
def staleFailedTask : DownloadTask := { task0 with state := .failed }

/-- A registry holding a downloading and a completed task. -/
def regC7 : Registry := [(gs "d", dlTask), (gs "c", doneTask)]

/-- A registry holding one pending task. -/
def regPend : Registry := [(tid0, task0)]

/-- One configured audio and video extension. -/
def cfg0 : YtConfig := { audioFormats := [gs "m4a"], videoFormats := [gs "mp4"] }

/-- Metadata fetch: cache miss and failing subprocess. -/
def envSubErr : FetchEnv := { cached := none, subprocess := .error () }

/-- Metadata fetch: cache miss, subprocess prints unparseable text. -/
def envGarbage : FetchEnv := { cached := none, subprocess := .ok (.malformed 0) }

/-- Metadata fetch: cache miss, subprocess prints an empty JSON
    object (every field missing). -/
def envEmptyObj : FetchEnv := { cached := none, subprocess := .ok (.jsonVal (.vobj [])) }

/- ===============================================================
   Supporting lemmas, followed by the claim theorems.
   =============================================================== -/

theorem hexVal_hexDigitChar (k : Nat) (hk : k < 16) :
    hexVal (hexDigitChar k) = some k := by
  by_cases h : k < 10
  · have hc : hexDigitChar k = 48 + k := by simp [hexDigitChar, h]
    rw [hc]
    unfold hexVal
    rw [if_pos (by omega)]
    simp only [Option.some.injEq]
    omega
  · have hc : hexDigitChar k = 87 + k := by simp [hexDigitChar, h]
    rw [hc]
    unfold hexVal
    rw [if_neg (by omega), if_pos (by omega)]
    simp only [Option.some.injEq]
    omega

theorem FromHex_ToHex (s : GoStr) (hs : ByteStr s) : FromHex (ToHex s) = some s := by
  induction s with
  | nil => rfl
  | cons b rest ih =>
    have hb : b < 256 := hs b (List.mem_cons_self _ _)
    have hrest : ByteStr rest := fun x hx => hs x (List.mem_cons_of_mem _ hx)
    have h1 : b / 16 < 16 := by omega
    have h2 : b % 16 < 16 := Nat.mod_lt _ (by omega)
    have hb' : 16 * (b / 16) + b % 16 = b := by omega
    simp [ToHex, FromHex, hexVal_hexDigitChar _ h1, hexVal_hexDigitChar _ h2,
      ih hrest, hb']

/-- If any byte of the input is not a hex digit, FromHex fails. -/
theorem FromHex_eq_none_of_nonhex :
    ∀ (s : GoStr), ∀ c ∈ s, hexVal c = none → FromHex s = none
  | [], c, hc, _ => absurd hc (List.not_mem_nil c)
  | [_], _, _, _ => by simp [FromHex]
  | a :: b :: rest, c, hc, hv => by
    rw [List.mem_cons, List.mem_cons] at hc
    rcases hc with h | h | h
    · subst h; simp [FromHex, hv]
    · subst h
      rcases ha : hexVal a with _ | x <;> simp [FromHex, ha, hv]
    · have ihx := FromHex_eq_none_of_nonhex rest c h hv
      rcases ha : hexVal a with _ | x <;> rcases hb : hexVal b with _ | y <;>
        simp [FromHex, ha, hb, ihx]

theorem split2_no_sep : ∀ (s : GoStr), NoUS s → ∀ acc : GoStr,
    split2 acc s = [acc.reverse ++ s]
  | [], _, acc => by simp [split2]
  | [x], _, acc => by simp [split2]
  | x :: y :: rest, hs, acc => by
    have hx : x ≠ 95 := fun h => hs (h ▸ List.mem_cons_self _ _)
    have hyr : NoUS (y :: rest) := fun h => hs (List.mem_cons_of_mem _ h)
    rw [split2, if_neg (by simp [hx]), split2_no_sep (y :: rest) hyr (x :: acc)]
    simp

theorem split2_append_sep : ∀ (s : GoStr), NoUS s → ∀ acc rest : GoStr,
    split2 acc (s ++ 95 :: 95 :: rest) = (acc.reverse ++ s) :: split2 [] rest
  | [], _, acc, rest => by
    rw [List.nil_append, split2, if_pos ⟨rfl, rfl⟩]
    simp
  | [x], hs, acc, rest => by
    have hx : x ≠ 95 := fun h => hs (h ▸ List.mem_cons_self _ _)
    show split2 acc (x :: 95 :: 95 :: rest) = _
    rw [split2, if_neg (by simp [hx]), split2, if_pos ⟨rfl, rfl⟩]
    simp
  | x :: y :: ys, hs, acc, rest => by
    have hx : x ≠ 95 := fun h => hs (h ▸ List.mem_cons_self _ _)
    have hyr : NoUS (y :: ys) := fun h => hs (List.mem_cons_of_mem _ h)
    show split2 acc (x :: y :: (ys ++ 95 :: 95 :: rest)) = _
    rw [split2, if_neg (by simp [hx])]
    have ih := split2_append_sep (y :: ys) hyr (x :: acc) rest
    rw [List.cons_append] at ih
    rw [ih]
    simp

theorem asciiDigitsRevAux_fuel : ∀ (fuel fuel' n : Nat), n ≤ fuel → n ≤ fuel' →
    asciiDigitsRevAux fuel n = asciiDigitsRevAux fuel' n
  | _, _, 0, _, _ => by simp [asciiDigitsRevAux]
  | 0, _, n + 1, h, _ => absurd h (by omega)
  | _ + 1, 0, n + 1, _, h' => absurd h' (by omega)
  | fuel + 1, fuel' + 1, n + 1, h, h' => by
    rw [asciiDigitsRevAux, asciiDigitsRevAux]
    have hd : (n + 1) / 10 ≤ n := Nat.lt_succ_iff.mp (Nat.div_lt_self (Nat.succ_pos n) (by omega))
    rw [asciiDigitsRevAux_fuel fuel fuel' ((n + 1) / 10) (by omega) (by omega)]

/-- The defining recurrence of asciiDigitsRev for positive arguments. -/
theorem asciiDigitsRev_succ (n : Nat) :
    asciiDigitsRev (n + 1) = ((n + 1) % 10 + 48) :: asciiDigitsRev ((n + 1) / 10) := by
  show asciiDigitsRevAux (n + 1) (n + 1) = _
  rw [asciiDigitsRevAux]
  have hd : (n + 1) / 10 ≤ n := Nat.lt_succ_iff.mp (Nat.div_lt_self (Nat.succ_pos n) (by omega))
  rw [asciiDigitsRevAux_fuel n ((n + 1) / 10) ((n + 1) / 10) (by omega) (by omega)]
  rfl

theorem decDigitsGo_append (acc : Nat) (l : GoStr) (c : Nat) :
    decDigitsGo acc (l ++ [c]) =
      (decDigitsGo acc l).bind fun a =>
        if 48 ≤ c ∧ c ≤ 57 then some (a * 10 + (c - 48)) else none := by
  induction l generalizing acc with
  | nil => simp [decDigitsGo]
  | cons x xs ih =>
    by_cases hx : 48 ≤ x ∧ x ≤ 57 <;> simp [decDigitsGo, hx, ih]

theorem mem_asciiDigitsRev (n : Nat) : ∀ b ∈ asciiDigitsRev n, 48 ≤ b ∧ b ≤ 57 := by
  induction n using Nat.strong_induction_on with
  | _ n ih =>
    match n with
    | 0 => intro b hb; simp [asciiDigitsRev, asciiDigitsRevAux] at hb
    | m + 1 =>
      intro b hb
      rw [asciiDigitsRev_succ, List.mem_cons] at hb
      rcases hb with hb | hb
      · subst hb; constructor <;> omega
      · exact ih ((m + 1) / 10) (Nat.div_lt_self (Nat.succ_pos m) (by omega)) b hb

theorem decDigitsGo_asciiDigitsRev (n : Nat) (acc : Nat) :
    decDigitsGo acc (asciiDigitsRev n).reverse = some (acc * 10 ^ (asciiDigitsRev n).length + n) := by
  induction n using Nat.strong_induction_on generalizing acc with
  | _ n ih =>
    match n with
    | 0 => simp [asciiDigitsRev, asciiDigitsRevAux, decDigitsGo]
    | m + 1 =>
      rw [asciiDigitsRev_succ, List.reverse_cons, decDigitsGo_append,
        ih ((m + 1) / 10) (Nat.div_lt_self (Nat.succ_pos m) (by omega)) acc]
      have h : 48 ≤ (m + 1) % 10 + 48 ∧ (m + 1) % 10 + 48 ≤ 57 := by
        constructor <;> omega
      simp only [Option.some_bind, if_pos h, List.length_cons, pow_succ,
        Option.some.injEq]
      rw [← mul_assoc]
      omega

theorem decDigitsGo_natToDec (n : Nat) : decDigitsGo 0 (natToDec n) = some n := by
  unfold natToDec
  by_cases h : n = 0
  · simp [h, decDigitsGo]
  · rw [if_neg h, decDigitsGo_asciiDigitsRev]
    simp

theorem natToDec_ne_nil (n : Nat) : natToDec n ≠ [] := by
  unfold natToDec
  by_cases h : n = 0
  · simp [h]
  · rw [if_neg h]
    rcases hd : asciiDigitsRev n with _ | ⟨b, rest⟩
    · cases n with
      | zero => exact absurd rfl h
      | succ m => rw [asciiDigitsRev_succ] at hd; cases hd
    · simp [hd]

theorem mem_natToDec (n : Nat) : ∀ b ∈ natToDec n, 48 ≤ b ∧ b ≤ 57 := by
  unfold natToDec
  by_cases h : n = 0
  · intro b hb; simp [h] at hb; omega
  · rw [if_neg h]
    intro b hb
    exact mem_asciiDigitsRev n b (List.mem_reverse.mp hb)

theorem parseInt64_natToDec (n : Nat) (hn : n ≤ 2 ^ 63 - 1) :
    parseInt64 (natToDec n) = some (n : Int) := by
  rcases hd : natToDec n with _ | ⟨c, rest⟩
  · exact absurd hd (natToDec_ne_nil n)
  · have hc : 48 ≤ c ∧ c ≤ 57 := mem_natToDec n c (hd ▸ List.mem_cons_self _ _)
    have hdig : decDigitsGo 0 (c :: rest) = some n := hd ▸ decDigitsGo_natToDec n
    rw [parseInt64, if_neg (by omega), if_neg (by omega), parseUnsigned64,
      if_neg (by simp), hdig]
    simp only [Option.some_bind]
    rw [if_pos (by omega)]

theorem noUS_natToDec (n : Nat) : NoUS (natToDec n) := by
  intro h
  have := mem_natToDec n 95 h
  omega

theorem byteStr_natToDec (n : Nat) : ByteStr (natToDec n) := by
  intro b hb
  have := mem_natToDec n b hb
  omega

theorem byteStr_append (a b : GoStr) (ha : ByteStr a) (hb : ByteStr b) :
    ByteStr (a ++ b) := by
  intro x hx
  rcases List.mem_append.mp hx with h | h
  · exact ha x h
  · exact hb x h

theorem noUS_append (a b : GoStr) (ha : NoUS a) (hb : NoUS b) : NoUS (a ++ b) := by
  intro h
  rcases List.mem_append.mp h with h | h
  · exact ha h
  · exact hb h

theorem byteStr_cons (x : Nat) (s : GoStr) (hx : x < 256) (hs : ByteStr s) :
    ByteStr (x :: s) := by
  intro b hb
  rcases List.mem_cons.mp hb with h | h
  · omega
  · exact hs b h

theorem noUS_cons (x : Nat) (s : GoStr) (hx : x ≠ 95) (hs : NoUS s) :
    NoUS (x :: s) := by
  intro h
  rcases List.mem_cons.mp h with h' | h'
  · exact hx h'.symm
  · exact hs h'

theorem split2_inner (t : Nat) (ext dec fid : GoStr) (ht : t ≠ 95)
    (h1 : NoUS ext) (h2 : NoUS dec) (h3 : NoUS fid) :
    split2 [] (t :: 95 :: 95 :: (ext ++ 95 :: 95 :: (dec ++ 95 :: 95 :: fid))) =
      [[t], ext, dec, fid] := by
  have hts : NoUS [t] := by
    intro h
    exact ht (List.mem_singleton.mp h).symm
  have e1 : t :: 95 :: 95 :: (ext ++ 95 :: 95 :: (dec ++ 95 :: 95 :: fid)) =
      [t] ++ 95 :: 95 :: (ext ++ 95 :: 95 :: (dec ++ 95 :: 95 :: fid)) := rfl
  rw [e1, split2_append_sep [t] hts [], split2_append_sep ext h1 [],
    split2_append_sep dec h2 [], split2_no_sep fid h3 []]
  simp

theorem audio_token_inner (ext : GoStr) (asr : Int) (fid : GoStr) :
    gs "a__" ++ ext ++ gs "__" ++ intToDec asr ++ gs "__" ++ fid =
      97 :: 95 :: 95 :: (ext ++ 95 :: 95 :: (intToDec asr ++ 95 :: 95 :: fid)) := by
  show [97, 95, 95] ++ ext ++ [95, 95] ++ intToDec asr ++ [95, 95] ++ fid = _
  simp

theorem ParseAudioFormatID_build (ext : GoStr) (asr : Int) (fid : GoStr)
    (hbe : ByteStr ext) (hbf : ByteStr fid) (hue : NoUS ext) (huf : NoUS fid)
    (h0 : 0 ≤ asr) (h63 : asr ≤ 2 ^ 63 - 1) :
    ParseAudioFormatID (buildAudioFormatID ext asr fid) = .ok (ext, asr, fid) := by
  have hdec : intToDec asr = natToDec asr.toNat := by
    unfold intToDec
    rw [if_neg (by omega)]
  have hbd : ByteStr (intToDec asr) := hdec ▸ byteStr_natToDec asr.toNat
  have hinner : ByteStr (97 :: 95 :: 95 ::
      (ext ++ 95 :: 95 :: (intToDec asr ++ 95 :: 95 :: fid))) :=
    byteStr_cons _ _ (by omega) (byteStr_cons _ _ (by omega)
      (byteStr_cons _ _ (by omega) (byteStr_append _ _ hbe
        (byteStr_cons _ _ (by omega) (byteStr_cons _ _ (by omega)
          (byteStr_append _ _ hbd (byteStr_cons _ _ (by omega)
            (byteStr_cons _ _ (by omega) hbf))))))))
  have hfh := FromHex_ToHex _ hinner
  have hsp := split2_inner 97 ext (intToDec asr) fid (by omega) hue
    (hdec ▸ noUS_natToDec asr.toNat) huf
  have hpi : parseInt64 (intToDec asr) = some asr := by
    rw [hdec, parseInt64_natToDec asr.toNat (by omega)]
    congr 1
    omega
  have hga : gs "a" = [97] := by decide
  rw [buildAudioFormatID, audio_token_inner]
  simp only [ParseAudioFormatID, hfh, hsp, hga, hpi, if_pos rfl]
  simp

theorem video_token_inner (ext res vfid a : GoStr) :
    gs "v__" ++ ext ++ gs "__" ++ res ++ gs "__" ++ vfid ++ a =
      118 :: 95 :: 95 :: (ext ++ 95 :: 95 :: (res ++ 95 :: 95 :: (vfid ++ a))) := by
  show [118, 95, 95] ++ ext ++ [95, 95] ++ res ++ [95, 95] ++ vfid ++ a = _
  simp

theorem ParseVideoFormatID_build (ext res vfid afid : GoStr)
    (hbe : ByteStr ext) (hbr : ByteStr res) (hbv : ByteStr vfid)
    (hba : ByteStr afid) (hue : NoUS ext) (hur : NoUS res) (huv : NoUS vfid)
    (hua : NoUS afid) :
    ParseVideoFormatID (buildVideoFormatID ext res vfid afid) =
      .ok (ext, res, vfid ++ (if afid = [] then [] else 43 :: afid)) := by
  have hgp : gs "+" = [43] := by decide
  have ha : (if afid = [] then ([] : GoStr) else gs "+" ++ afid) =
      if afid = [] then [] else 43 :: afid := by
    by_cases h : afid = [] <;> simp [h, hgp]
  have hba' : ByteStr (if afid = [] then ([] : GoStr) else 43 :: afid) := by
    by_cases h : afid = []
    · rw [if_pos h]; intro b hb; cases hb
    · rw [if_neg h]; exact byteStr_cons _ _ (by omega) hba
  have hua0 : NoUS (if afid = [] then ([] : GoStr) else 43 :: afid) := by
    by_cases h : afid = []
    · rw [if_pos h]; intro h'; cases h'
    · rw [if_neg h]; exact noUS_cons _ _ (by omega) hua
  have hua' : NoUS (vfid ++ if afid = [] then [] else 43 :: afid) :=
    noUS_append _ _ huv hua0
  have hinner : ByteStr (118 :: 95 :: 95 :: (ext ++ 95 :: 95 ::
      (res ++ 95 :: 95 :: (vfid ++ if afid = [] then [] else 43 :: afid)))) :=
    byteStr_cons _ _ (by omega) (byteStr_cons _ _ (by omega)
      (byteStr_cons _ _ (by omega) (byteStr_append _ _ hbe
        (byteStr_cons _ _ (by omega) (byteStr_cons _ _ (by omega)
          (byteStr_append _ _ hbr (byteStr_cons _ _ (by omega)
            (byteStr_cons _ _ (by omega)
              (byteStr_append _ _ hbv hba')))))))))
  have hfh := FromHex_ToHex _ hinner
  have hsp := split2_inner 118 ext res
    (vfid ++ if afid = [] then [] else 43 :: afid) (by omega) hue hur hua'
  have hgv : gs "v" = [118] := by decide
  rw [buildVideoFormatID]
  simp only [ha, video_token_inner]
  simp only [ParseVideoFormatID, hfh, hsp, hgv, if_pos rfl]
  simp

theorem CheckUrl_eq (u : URL) : CheckUrl u =
    (if u.scheme = [] ∨ u.scheme = gs "http" ∨ u.scheme = gs "https" then
      if u.host = gs "youtube.com" ∨ u.host = gs "m.youtube.com" ∨
          u.host = gs "www.youtube.com" then
        if u.path = gs "/watch" then
          if queryGet u.query (gs "v") = [] then .error .missingVideoID
          else .ok ({ u with scheme := gs "https", host := gs "www.youtube.com" },
            queryGet u.query (gs "v"))
        else .error .badPath
      else .error .badHost
    else .error .badScheme) := rfl

theorem lookupTask_cons_self (k : GoStr) (t : DownloadTask) (reg : Registry) :
    lookupTask ((k, t) :: reg) k = some t := by
  simp [lookupTask, List.find?]

/-- C9: CheckUrl succeeds exactly on the https-defaultable watch URLs
    of the three known hosts with a non-empty v parameter, returning
    the value of v as the content id and canonicalising scheme and
    host; every other scheme, host, path, or missing v fails. -/
theorem C9_CheckUrl_contract (u : URL) (canon : URL) (vid : GoStr) :
    CheckUrl u = .ok (canon, vid) ↔
      ((u.scheme = [] ∨ u.scheme = gs "http" ∨ u.scheme = gs "https") ∧
       (u.host = gs "youtube.com" ∨ u.host = gs "m.youtube.com" ∨
         u.host = gs "www.youtube.com") ∧
       u.path = gs "/watch" ∧
       vid = queryGet u.query (gs "v") ∧ vid ≠ [] ∧
       canon = { u with scheme := gs "https", host := gs "www.youtube.com" }) := by
  rw [CheckUrl_eq]
  split_ifs with h1 h2 h3 h4
  · constructor
    · intro h; cases h
    · rintro ⟨-, -, -, hv, hne, -⟩
      exact absurd (hv.trans h4) hne
  · constructor
    · intro h
      rw [Except.ok.injEq, Prod.mk.injEq] at h
      exact ⟨h1, h2, h3, h.2.symm, fun he => h4 (h.2.trans he), h.1.symm⟩
    · rintro ⟨-, -, -, hv, -, hc⟩
      rw [hc, hv]
  · constructor
    · intro h; cases h
    · rintro ⟨-, -, hp, -⟩; exact absurd hp h3
  · constructor
    · intro h; cases h
    · rintro ⟨-, hh, -⟩; exact absurd hh h2
  · constructor
    · intro h; cases h
    · rintro ⟨hs, -⟩; exact absurd hs h1

/-- C1: the task id is the deterministic hex rendering of the key
    string built from the content id and the parsed token fields, and
    StartDownload is idempotent: when an entry with the derived id
    exists, in any state, the call returns that id and leaves the
    registry unchanged; a second call with the identical pair
    therefore returns the first call's id without inserting. -/
theorem C1_taskid_deterministic_idempotent :
    (∀ (u : URL) (fid : GoStr) (canon : URL) (vid : GoStr),
      CheckUrl u = .ok (canon, vid) →
      getTaskId u fid = .ok (ToHex (taskKeyString vid fid))) ∧
    (∀ (reg : Registry) (u : URL) (fid tid : GoStr) (t : DownloadTask) (now : Nat),
      getTaskId u fid = .ok tid → lookupTask reg tid = some t →
      StartDownload now reg u fid = .ok (tid, reg)) ∧
    (∀ (reg reg1 : Registry) (u : URL) (fid tid : GoStr) (now1 now2 : Nat),
      StartDownload now1 reg u fid = .ok (tid, reg1) →
      StartDownload now2 reg1 u fid = .ok (tid, reg1)) := by
  have hb : ∀ (reg : Registry) (u : URL) (fid tid : GoStr) (t : DownloadTask) (now : Nat),
      getTaskId u fid = .ok tid → lookupTask reg tid = some t →
      StartDownload now reg u fid = .ok (tid, reg) := by
    intro reg u fid tid t now hg hl
    simp only [StartDownload, hg, hl]
  refine ⟨?_, hb, ?_⟩
  · intro u fid canon vid h
    simp only [getTaskId, h]
  · intro reg reg1 u fid tid now1 now2 h1
    cases hg : getTaskId u fid with
    | error e =>
      simp only [StartDownload, hg] at h1
      exact Except.noConfusion h1
    | ok tid' =>
      cases hl : lookupTask reg tid' with
      | some t =>
        simp only [StartDownload, hg, hl, Except.ok.injEq, Prod.mk.injEq] at h1
        obtain ⟨rfl, rfl⟩ := h1
        exact hb reg u fid tid' t now2 hg hl
      | none =>
        simp only [StartDownload, hg, hl, Except.ok.injEq, Prod.mk.injEq] at h1
        obtain ⟨rfl, rfl⟩ := h1
        exact hb _ u fid tid' _ now2 hg (lookupTask_cons_self _ _ _)

/-- C1 witness: after the first StartDownload for watchUrl and
    audioTok, a second call returns the same id and the same
    registry. -/
theorem C1_witness :
    StartDownload 9 reg0 watchUrl audioTok = .ok (tid0, reg0) :=
  C1_taskid_deterministic_idempotent.2.2 [] reg0 watchUrl audioTok tid0 3 9 (by decide)

/-- C6: with a valid URL and the malformed token zz (not hex), the
    audio token decode fails and IsVideoFormatID is false, yet
    StartDownload succeeds, deriving a degenerate task id from the
    zero values of the failed parse instead of surfacing the decode
    error. -/
theorem C6_malformed_token_accepted :
    ParseAudioFormatID (gs "zz") = .error .invalidFormatID ∧
    IsVideoFormatID (gs "zz") = false ∧
    StartDownload 7 [] watchUrl (gs "zz") =
      .ok (ToHex (gs "abc/audio/0/abc."),
        [(ToHex (gs "abc/audio/0/abc."),
          { id := ToHex (gs "abc/audio/0/abc.")
            url := watchUrl
            format := gs "zz"
            state := .pending
            progress := 0
            speed := gs "0 B/s"
            eta := gs "unknown"
            downloadUrl := []
            error := []
            startTime := 7
            endTime := 0
            hasCancel := true })]) := by decide

/-- C7: cancelling an absent id fails with the not-found error;
    cancelling a downloading task (whose cancel function is set, as
    every registered task's is) invokes the cancellation signal and
    rewrites exactly the state, error and end-time fields; cancelling
    a task in a terminal state returns success, does not signal, and
    leaves the registry unchanged. -/
theorem C7_cancel_contract :
    (∀ (reg : Registry) (tid : GoStr) (now : Nat),
      lookupTask reg tid = none →
      CancelDownload now reg tid = .error .taskNotFound) ∧
    (∀ (reg : Registry) (tid : GoStr) (now : Nat) (t : DownloadTask),
      lookupTask reg tid = some t → t.state = .downloading → t.hasCancel = true →
      CancelDownload now reg tid =
        .ok (updateTask reg tid
          { t with
            state := .failed
            error := gs "Download cancelled by user"
            endTime := now }, true)) ∧
    (∀ (reg : Registry) (tid : GoStr) (now : Nat) (t : DownloadTask),
      lookupTask reg tid = some t →
      (t.state = .completed ∨ t.state = .failed) →
      CancelDownload now reg tid = .ok (reg, false)) := by
  refine ⟨?_, ?_, ?_⟩
  · intro reg tid now h
    simp only [CancelDownload, h]
  · intro reg tid now t h hst hc
    simp only [CancelDownload, h]
    rw [if_pos ⟨hst, by simp [hc]⟩]
  · intro reg tid now t h hterm
    simp only [CancelDownload, h]
    rw [if_neg]
    rintro ⟨hst, -⟩
    rcases hterm with h' | h' <;> rw [h'] at hst <;> cases hst

/-- C7 witness: the three cases on a concrete registry. -/
theorem C7_witness :
    CancelDownload 11 regC7 (gs "zz") = .error .taskNotFound ∧
    CancelDownload 11 regC7 (gs "d") =
      .ok (updateTask regC7 (gs "d")
        { dlTask with
          state := .failed
          error := gs "Download cancelled by user"
          endTime := 11 }, true) ∧
    CancelDownload 11 regC7 (gs "c") = .ok (regC7, false) :=
  ⟨C7_cancel_contract.1 regC7 (gs "zz") 11 (by decide),
   C7_cancel_contract.2.1 regC7 (gs "d") 11 dlTask (by decide) (by decide) (by decide),
   C7_cancel_contract.2.2 regC7 (gs "c") 11 doneTask (by decide) (by decide)⟩

/-- C10: cancelling a pending task returns success without invoking
    the cancellation signal and without changing the registry, so the
    task record is untouched; when the executor later runs that same
    task with a healthy environment it still downloads to
    completion. -/
theorem C10_cancel_pending_silent_noop :
    ∀ (reg : Registry) (tid : GoStr) (now : Nat) (t : DownloadTask),
      lookupTask reg tid = some t → t.state = .pending →
      CancelDownload now reg tid = .ok (reg, false) ∧
      (∀ (pfx d : GoStr) (env : ExecEnv),
        FromHex t.id = some d → env.artifactExists = false →
        env.stdoutPipeOk = true → env.stderrPipeOk = true → env.startOk = true →
        env.waitErr = false → env.moveOk = true →
        (runDownload pfx env t).state = .completed) := by
  intro reg tid now t h hst
  constructor
  · simp only [CancelDownload, h]
    rw [if_neg]
    rintro ⟨hdl, -⟩
    rw [hst] at hdl
    cases hdl
  · intro pfx d env hfx hart hso hse hstart hwait hmove
    simp only [runDownload, hfx, hart, hso, hse, hstart, hwait, hmove]
    simp

/-- C10 witness: cancel on the concrete pending registry entry, then
    a successful execution of the unchanged task. -/
theorem C10_witness :
    CancelDownload 11 regPend tid0 = .ok (regPend, false) ∧
    (runDownload [] envGood task0).state = .completed := by
  have h := C10_cancel_pending_silent_noop regPend tid0 11 task0 (by decide) (by decide)
  exact ⟨h.1, h.2 [] (gs "abc/audio/44100/abc.m4a") envGood (by decide) (by decide)
    (by decide) (by decide) (by decide) (by decide) (by decide)⟩

/-- C8 counterexample: a failed task whose end time was never stamped
    (end time zero) is never removed, although it is terminal and the
    elapsed time since its (zero) end timestamp exceeds the retention
    window; the claim as stated says it is removed. -/
theorem C8_counterexample :
    staleFailedTask.state = .failed ∧
    (10 ^ 15 : Nat) - staleFailedTask.endTime > tenMinutes ∧
    cleanupCompletedTasks (10 ^ 15) [(gs "k", staleFailedTask)] =
      [(gs "k", staleFailedTask)] := by decide

/-- C8 amended: one eviction pass removes a task exactly when its
    state is terminal, its end timestamp is non-zero, and the elapsed
    time since that timestamp exceeds the ten-minute window; pending
    and downloading tasks are never removed regardless of age. -/
theorem C8_eviction_amended :
    ∀ (now : Nat) (reg : Registry) (k : GoStr) (t : DownloadTask),
      ((k, t) ∈ cleanupCompletedTasks now reg ↔
        (k, t) ∈ reg ∧
        ¬((t.state = .completed ∨ t.state = .failed) ∧ t.endTime ≠ 0 ∧
          now - t.endTime > tenMinutes)) ∧
      ((k, t) ∈ reg → (t.state = .pending ∨ t.state = .downloading) →
        (k, t) ∈ cleanupCompletedTasks now reg) := by
  intro now reg k t
  have hm : (k, t) ∈ cleanupCompletedTasks now reg ↔
      (k, t) ∈ reg ∧
      ¬((t.state = .completed ∨ t.state = .failed) ∧ t.endTime ≠ 0 ∧
        now - t.endTime > tenMinutes) := by
    unfold cleanupCompletedTasks
    rw [List.mem_filter, Bool.not_eq_true', decide_eq_false_iff_not]
  refine ⟨hm, ?_⟩
  intro hmem hact
  rw [hm]
  refine ⟨hmem, ?_⟩
  rintro ⟨hterm, -⟩
  rcases hact with h' | h' <;> rcases hterm with h'' | h'' <;>
    rw [h'] at h'' <;> cases h''

/-- C8 witness: a downloading task older than the window survives the
    pass, and a completed task ended more than ten minutes ago with a
    stamped end time is removed. -/
theorem C8_witness :
    (gs "d", dlTask) ∈ cleanupCompletedTasks (10 ^ 15) [(gs "d", dlTask)] ∧
    (gs "c", doneTask) ∉ cleanupCompletedTasks (10 ^ 15) [(gs "c", doneTask)] := by
  constructor
  · exact (C8_eviction_amended (10 ^ 15) [(gs "d", dlTask)] (gs "d") dlTask).2
      (by decide) (by decide)
  · intro hmem
    have h := ((C8_eviction_amended (10 ^ 15) [(gs "c", doneTask)] (gs "c")
      doneTask).1.mp hmem).2
    exact h (by decide)

/-- C4: two terminal transitions that leave the end time unstamped:
    with a failing stdout-pipe setup the task ends failed with end
    time still zero, and with a failing artifact relocation after a
    successful subprocess run the task also ends failed with end time
    still zero, although the clock of the execution is non-zero. -/
theorem C4_terminal_without_endtime :
    ((runDownload [] envPipeFail task0).state = .failed ∧
     (runDownload [] envPipeFail task0).endTime = 0) ∧
    ((runDownload [] envMoveFail task0).state = .failed ∧
     (runDownload [] envMoveFail task0).endTime = 0) ∧
    envPipeFail.now ≠ 0 ∧ envMoveFail.now ≠ 0 := by decide

/-- C2 counterexample: a single-character corruption of a valid audio
    token that stays inside the hex alphabet decodes successfully (to
    a different source id) instead of failing. -/
theorem C2_counterexample :
    audioTok.length = audioTokCorrupt.length ∧
    countDiff audioTok audioTokCorrupt = 1 ∧
    audioTok ≠ audioTokCorrupt ∧
    ParseAudioFormatID audioTok = .ok (gs "m4a", 44100, gs "140") ∧
    ParseAudioFormatID audioTokCorrupt = .ok (gs "m4a", 44100, gs "141") := by decide

/-- C2 amended: decode of encode is the identity for well-formed
    inputs (separator-free byte-string fields, sample rate in int64
    range); corrupting any one character to a byte outside the hex
    alphabet makes decode fail; but a corruption inside the hex
    alphabet may still decode, to a different tuple. -/
theorem C2_codec_roundtrip_amended :
    (∀ (ext : GoStr) (asr : Int) (fid : GoStr),
      ByteStr ext → ByteStr fid → NoUS ext → NoUS fid →
      0 ≤ asr → asr ≤ 2 ^ 63 - 1 →
      ParseAudioFormatID (buildAudioFormatID ext asr fid) = .ok (ext, asr, fid)) ∧
    (∀ (ext res vfid afid : GoStr),
      ByteStr ext → ByteStr res → ByteStr vfid → ByteStr afid →
      NoUS ext → NoUS res → NoUS vfid → NoUS afid →
      ParseVideoFormatID (buildVideoFormatID ext res vfid afid) =
        .ok (ext, res, vfid ++ (if afid = [] then [] else 43 :: afid))) ∧
    (∀ (tok : GoStr) (i : Nat) (c : Nat), i < tok.length → hexVal c = none →
      ParseAudioFormatID (tok.set i c) = .error .invalidFormatID ∧
      ParseVideoFormatID (tok.set i c) = .error .invalidFormatID ∧
      IsVideoFormatID (tok.set i c) = false) := by
  refine ⟨ParseAudioFormatID_build, ParseVideoFormatID_build, ?_⟩
  intro tok i c hi hc
  have hmem : c ∈ tok.set i c := List.mem_set tok i hi c
  have hnone : FromHex (tok.set i c) = none :=
    FromHex_eq_none_of_nonhex _ c hmem hc
  refine ⟨?_, ?_, ?_⟩
  · simp only [ParseAudioFormatID, hnone]
  · simp only [ParseVideoFormatID, hnone]
  · simp only [IsVideoFormatID, hnone]

/-- C2 witness: the round trips at concrete tokens and a non-hex
    corruption that fails. -/
theorem C2_witness :
    ParseAudioFormatID (buildAudioFormatID (gs "m4a") 44100 (gs "140")) =
      .ok (gs "m4a", 44100, gs "140") ∧
    ParseVideoFormatID (buildVideoFormatID (gs "mp4") (gs "1920x1080") (gs "137")
      (gs "140")) =
      .ok (gs "mp4", gs "1920x1080",
        gs "137" ++ (if gs "140" = ([] : GoStr) then [] else 43 :: gs "140")) ∧
    ParseAudioFormatID (audioTok.set 0 103) = .error .invalidFormatID :=
  ⟨C2_codec_roundtrip_amended.1 (gs "m4a") 44100 (gs "140") (by decide) (by decide)
    (by decide) (by decide) (by decide) (by decide),
   C2_codec_roundtrip_amended.2.1 (gs "mp4") (gs "1920x1080") (gs "137") (gs "140")
    (by decide) (by decide) (by decide) (by decide) (by decide) (by decide)
    (by decide) (by decide),
   (C2_codec_roundtrip_amended.2.2 audioTok 0 103 (by decide) (by decide)).1⟩

/-- C5 counterexample: on a cache miss with a successfully exiting
    subprocess whose output is not JSON, the fetch fails but the raw
    output IS written to the cache; and a document with every field
    missing (empty object) succeeds with zero-value defaults instead
    of failing on a missing mandatory field. -/
theorem C5_counterexample :
    GetVideoInfo cfg0 watchUrl envGarbage =
      (.error .unparseableJson, some (.malformed 0)) ∧
    (∃ info, GetVideoInfo cfg0 watchUrl envEmptyObj =
      (.ok info, some (.jsonVal (.vobj [])))) := by
  exact ⟨rfl, ⟨_, rfl⟩⟩

/-- C5 amended: metadata fetching fails exactly when the subprocess
    fails (on a cache miss) or when the effective document is not a
    JSON object; a missing field never fails (defaults are used).  On
    a subprocess failure nothing is cached, but when the subprocess
    succeeds its raw output is cached even if JSON parsing fails
    afterwards; a cache hit is served without running the
    subprocess. -/
theorem C5_metadata_failure_amended :
    ∀ (cfg : YtConfig) (u : URL) (env : FetchEnv) (p : URL × GoStr),
      CheckUrl u = .ok p →
      ((env.cached = none → env.subprocess = .error () →
        GetVideoInfo cfg u env = (.error .subprocessFailed, none)) ∧
       (∀ doc, env.cached = none → env.subprocess = .ok doc →
        (GetVideoInfo cfg u env).2 = some doc ∧
        (unmarshalObj doc = none →
          (GetVideoInfo cfg u env).1 = .error .unparseableJson) ∧
        (∀ fs, unmarshalObj doc = some fs →
          ∃ info, (GetVideoInfo cfg u env).1 = .ok info)) ∧
       (∀ doc, env.cached = some doc →
        (GetVideoInfo cfg u env).2 = some doc ∧
        (unmarshalObj doc = none →
          (GetVideoInfo cfg u env).1 = .error .unparseableJson) ∧
        (∀ fs, unmarshalObj doc = some fs →
          ∃ info, (GetVideoInfo cfg u env).1 = .ok info))) := by
  intro cfg u env p hu
  refine ⟨?_, ?_, ?_⟩
  · intro hc hs
    simp only [GetVideoInfo, executeYtdlpCommand, hu, doExecuteYtdlpCommand, hc, hs]
  · intro doc hc hs
    refine ⟨?_, ?_, ?_⟩
    · cases hun : unmarshalObj doc <;>
        simp only [GetVideoInfo, executeYtdlpCommand, hu, doExecuteYtdlpCommand,
          hc, hs, hun]
    · intro hun
      simp only [GetVideoInfo, executeYtdlpCommand, hu, doExecuteYtdlpCommand,
        hc, hs, hun]
    · intro fs hun
      simp only [GetVideoInfo, executeYtdlpCommand, hu, doExecuteYtdlpCommand,
        hc, hs, hun]
      exact ⟨_, rfl⟩
  · intro doc hc
    refine ⟨?_, ?_, ?_⟩
    · cases hun : unmarshalObj doc <;>
        simp only [GetVideoInfo, executeYtdlpCommand, hu, doExecuteYtdlpCommand,
          hc, hun]
    · intro hun
      simp only [GetVideoInfo, executeYtdlpCommand, hu, doExecuteYtdlpCommand,
        hc, hun]
    · intro fs hun
      simp only [GetVideoInfo, executeYtdlpCommand, hu, doExecuteYtdlpCommand,
        hc, hun]
      exact ⟨_, rfl⟩

/-- C5 witness: the subprocess-failure case at concrete inputs:
    request-level error and an untouched (empty) cache. -/
theorem C5_witness :
    GetVideoInfo cfg0 watchUrl envSubErr = (.error .subprocessFailed, none) :=
  (C5_metadata_failure_amended cfg0 watchUrl envSubErr (watchUrl, gs "abc")
    (by decide)).1 rfl rfl

/- ---------------------------------------------------------------
   Variant selection: relating the extractOptimalFormats loop to a
   per-bucket choice fold, and that fold to the ranking orders.
   --------------------------------------------------------------- -/

theorem foldl_stepFormat : ∀ (fmts : List GoVal) (am vm : Buckets),
    fmts.foldl stepFormat (am, vm) = (fmts.foldl stepAudio am, fmts.foldl stepVideo vm)
  | [], _, _ => rfl
  | v :: fs, am, vm => by
    rw [List.foldl_cons, List.foldl_cons, List.foldl_cons]
    exact foldl_stepFormat fs (stepAudio am v) (stepVideo vm v)

theorem foldl_stepAudio : ∀ (fmts : List GoVal) (m : Buckets),
    fmts.foldl stepAudio m =
      (audioCands fmts).foldl (bucketStep isAudioFormatMapBetter audioKey) m
  | [], _ => rfl
  | v :: fs, m => by
    rw [List.foldl_cons]
    cases v with
    | vobj f =>
      by_cases hc : audioCand f
      · rw [foldl_stepAudio fs]
        simp [audioCands, stepAudio, hc, List.filterMap_cons]
      · rw [foldl_stepAudio fs]
        simp [audioCands, stepAudio, hc, List.filterMap_cons]
    | vstr s => rw [foldl_stepAudio fs]; simp [audioCands, stepAudio, List.filterMap_cons]
    | vnum n => rw [foldl_stepAudio fs]; simp [audioCands, stepAudio, List.filterMap_cons]
    | varr xs => rw [foldl_stepAudio fs]; simp [audioCands, stepAudio, List.filterMap_cons]
    | vnull => rw [foldl_stepAudio fs]; simp [audioCands, stepAudio, List.filterMap_cons]

theorem foldl_stepVideo : ∀ (fmts : List GoVal) (m : Buckets),
    fmts.foldl stepVideo m =
      (videoCands fmts).foldl (bucketStep isVideoFormatMapBetter videoKey) m
  | [], _ => rfl
  | v :: fs, m => by
    rw [List.foldl_cons]
    cases v with
    | vobj f =>
      by_cases hc : videoCand f
      · rw [foldl_stepVideo fs]
        simp [videoCands, stepVideo, hc, List.filterMap_cons]
      · rw [foldl_stepVideo fs]
        simp [videoCands, stepVideo, hc, List.filterMap_cons]
    | vstr s => rw [foldl_stepVideo fs]; simp [videoCands, stepVideo, List.filterMap_cons]
    | vnum n => rw [foldl_stepVideo fs]; simp [videoCands, stepVideo, List.filterMap_cons]
    | varr xs => rw [foldl_stepVideo fs]; simp [videoCands, stepVideo, List.filterMap_cons]
    | vnull => rw [foldl_stepVideo fs]; simp [videoCands, stepVideo, List.filterMap_cons]

theorem audioByAsr_eq (fmts : List GoVal) :
    audioByAsr fmts =
      (audioCands fmts).foldl (bucketStep isAudioFormatMapBetter audioKey) [] := by
  unfold audioByAsr
  rw [foldl_stepFormat]
  exact foldl_stepAudio fmts []

theorem videoByResolution_eq (fmts : List GoVal) :
    videoByResolution fmts =
      (videoCands fmts).foldl (bucketStep isVideoFormatMapBetter videoKey) [] := by
  unfold videoByResolution
  rw [foldl_stepFormat]
  exact foldl_stepVideo fmts []

theorem lookupB_cons (p : GoStr × FmtMap) (m : Buckets) (k : GoStr) :
    lookupB (p :: m) k = if p.1 = k then some p.2 else lookupB m k := by
  by_cases h : p.1 = k
  · simp [lookupB, List.find?, h]
  · have hb : (p.1 == k) = false := by simp [h]
    simp [lookupB, List.find?, hb, h]

theorem lookupB_append_single (m : Buckets) (k0 k : GoStr) (f : FmtMap) :
    lookupB (m ++ [(k0, f)]) k =
      (lookupB m k).or (if k0 = k then some f else none) := by
  induction m with
  | nil =>
    rw [List.nil_append, lookupB_cons]
    by_cases h : k0 = k <;> simp [lookupB, h]
  | cons p m ih =>
    rw [List.cons_append, lookupB_cons, lookupB_cons]
    by_cases h : p.1 = k
    · rw [if_pos h, if_pos h]
      rfl
    · rw [if_neg h, if_neg h]
      exact ih

theorem lookupB_map_replace (m : Buckets) (k0 k : GoStr) (f : FmtMap) :
    lookupB (m.map (fun p => if p.1 == k0 then (p.1, f) else p)) k =
      if k0 = k then (lookupB m k).map (fun _ => f) else lookupB m k := by
  induction m with
  | nil => by_cases h : k0 = k <;> simp [lookupB, h]
  | cons p m ih =>
    rw [List.map_cons]
    have hkey : (if p.1 == k0 then (p.1, f) else p).1 = p.1 := by
      by_cases h0 : p.1 = k0 <;> simp [h0]
    rw [lookupB_cons, lookupB_cons, hkey]
    by_cases h : p.1 = k
    · rw [if_pos h, if_pos h]
      by_cases h0 : p.1 = k0
      · rw [if_pos (h0.symm.trans h)]
        simp [h0]
      · have hk : ¬ k0 = k := fun he => h0 (h.trans he.symm)
        rw [if_neg hk]
        simp [h0]
    · rw [if_neg h, if_neg h, ih]

theorem lookupB_updateBucket (m : Buckets) (k0 k : GoStr) (f : FmtMap)
    (hp : lookupB m k0 ≠ none) :
    lookupB (updateBucket m k0 f) k = if k0 = k then some f else lookupB m k := by
  have hs : ((m.find? (fun p => p.1 == k0)).isSome) = true := by
    unfold lookupB at hp
    cases hf : m.find? (fun p => p.1 == k0) with
    | none => rw [hf] at hp; simp at hp
    | some _ => simp
  unfold updateBucket
  rw [if_pos hs, lookupB_map_replace]
  by_cases h : k0 = k
  · rw [if_pos h, if_pos h]
    subst h
    cases hf : lookupB m k0 with
    | none => exact absurd hf hp
    | some _ => simp
  · rw [if_neg h, if_neg h]

theorem lookupB_bucketStep (better : FmtMap → FmtMap → Bool)
    (key : FmtMap → GoStr) (m : Buckets) (f : FmtMap) (k : GoStr) :
    lookupB (bucketStep better key m f) k =
      if key f = k then pickBetter better (lookupB m k) f else lookupB m k := by
  unfold bucketStep
  cases hl : lookupB m (key f) with
  | none =>
    rw [lookupB_append_single]
    by_cases h : key f = k
    · subst h
      rw [hl, if_pos rfl, if_pos rfl]
      rfl
    · rw [if_neg h, if_neg h]
      cases lookupB m k <;> rfl
  | some ex =>
    show lookupB (if better f ex then updateBucket m (key f) f else m) k =
      if key f = k then pickBetter better (lookupB m k) f else lookupB m k
    by_cases hb : better f ex
    · rw [if_pos hb, lookupB_updateBucket m (key f) k f (by rw [hl]; simp)]
      by_cases h : key f = k
      · subst h
        rw [if_pos rfl, if_pos rfl, hl]
        simp [pickBetter, hb]
      · rw [if_neg h, if_neg h]
    · rw [if_neg hb]
      by_cases h : key f = k
      · subst h
        rw [if_pos rfl, hl]
        simp [pickBetter, hb]
      · rw [if_neg h]

theorem lookupB_bucketFold (better : FmtMap → FmtMap → Bool)
    (key : FmtMap → GoStr) :
    ∀ (l : List FmtMap) (m : Buckets) (k : GoStr),
    lookupB (l.foldl (bucketStep better key) m) k =
      (l.filter (fun f => key f == k)).foldl (pickBetter better) (lookupB m k)
  | [], m, k => rfl
  | f :: l, m, k => by
    rw [List.foldl_cons, lookupB_bucketFold better key l _ k, lookupB_bucketStep]
    by_cases h : key f = k
    · rw [if_pos h]
      simp [List.filter_cons, h]
    · rw [if_neg h]
      simp [List.filter_cons, h]

theorem lookupB_eq_none_iff (m : Buckets) (k : GoStr) :
    lookupB m k = none ↔ ∀ p ∈ m, p.1 ≠ k := by
  simp [lookupB, List.find?_eq_none]

theorem keys_updateBucket_present (m : Buckets) (k0 : GoStr) (f : FmtMap)
    (hp : ((m.find? (fun p => p.1 == k0)).isSome) = true) :
    (updateBucket m k0 f).map Prod.fst = m.map Prod.fst := by
  unfold updateBucket
  rw [if_pos hp, List.map_map]
  apply List.map_congr_left
  intro p _
  by_cases h0 : p.1 = k0 <;> simp [h0]

theorem nodupKeys_bucketStep (better : FmtMap → FmtMap → Bool)
    (key : FmtMap → GoStr) (m : Buckets) (f : FmtMap)
    (h : (m.map Prod.fst).Nodup) :
    ((bucketStep better key m f).map Prod.fst).Nodup := by
  unfold bucketStep
  cases hl : lookupB m (key f) with
  | some ex =>
    show ((if better f ex then updateBucket m (key f) f else m).map Prod.fst).Nodup
    by_cases hb : better f ex
    · rw [if_pos hb, keys_updateBucket_present]
      · exact h
      · unfold lookupB at hl
        cases hf : m.find? (fun p => p.1 == key f) with
        | none => rw [hf] at hl; simp at hl
        | some _ => simp
    · rw [if_neg hb]
      exact h
  | none =>
    show ((m ++ [(key f, f)]).map Prod.fst).Nodup
    rw [List.map_append, List.nodup_append]
    refine ⟨h, by simp, ?_⟩
    intro a ha hmem
    have ha' : a = key f := by simpa using hmem
    obtain ⟨p, hp, hpa⟩ := List.mem_map.mp ha
    exact (lookupB_eq_none_iff m (key f)).mp hl p hp (hpa.trans ha')

theorem nodupKeys_bucketFold (better : FmtMap → FmtMap → Bool)
    (key : FmtMap → GoStr) :
    ∀ (l : List FmtMap) (m : Buckets), (m.map Prod.fst).Nodup →
    ((l.foldl (bucketStep better key) m).map Prod.fst).Nodup
  | [], _, h => h
  | f :: l, m, h => by
    rw [List.foldl_cons]
    exact nodupKeys_bucketFold better key l _ (nodupKeys_bucketStep better key m f h)

theorem filter_len_le_one {α : Type} (l : List α) (f : α → GoStr) (k : GoStr)
    (h : (l.map f).Nodup) : (l.filter (fun x => f x == k)).length ≤ 1 := by
  induction l with
  | nil => simp
  | cons x xs ih =>
    rw [List.map_cons, List.nodup_cons] at h
    by_cases hx : f x = k
    · rw [List.filter_cons, if_pos (by simp [hx])]
      have hnil : xs.filter (fun y => f y == k) = [] := by
        rw [List.filter_eq_nil_iff]
        intro y hy hyk
        exact h.1 (hx ▸ (by simpa using hyk : f y = k) ▸ List.mem_map_of_mem f hy)
      simp [hnil]
    · rw [List.filter_cons, if_neg (by simp [hx])]
      exact ih h.2

theorem pickBetter_fold_some (better : FmtMap → FmtMap → Bool)
    (le : FmtMap → FmtMap → Prop)
    (hiff : ∀ a b, better a b = true ↔ le b a)
    (htot : ∀ a b, le a b ∨ le b a)
    (htrans : ∀ a b c, le a b → le b c → le a c) :
    ∀ (l : List FmtMap) (c w : FmtMap),
      l.foldl (pickBetter better) (some c) = some w →
      (w = c ∨ w ∈ l) ∧ le c w ∧ ∀ f ∈ l, le f w
  | [], c, w, h => by
    rw [List.foldl_nil] at h
    injection h with h
    subst h
    exact ⟨Or.inl rfl, (htot c c).elim id id, by simp⟩
  | f :: l, c, w, h => by
    rw [List.foldl_cons] at h
    by_cases hb : better f c
    · rw [show pickBetter better (some c) f = some f from by simp [pickBetter, hb]] at h
      obtain ⟨hm, hle, hall⟩ := pickBetter_fold_some better le hiff htot htrans l f w h
      have hcf : le c f := (hiff f c).mp hb
      refine ⟨?_, htrans c f w hcf hle, ?_⟩
      · rcases hm with rfl | hm
        · exact Or.inr (List.mem_cons_self _ _)
        · exact Or.inr (List.mem_cons_of_mem _ hm)
      · intro g hg
        rcases List.mem_cons.mp hg with rfl | hg
        · exact hle
        · exact hall g hg
    · rw [show pickBetter better (some c) f = some c from by simp [pickBetter, hb]] at h
      obtain ⟨hm, hle, hall⟩ := pickBetter_fold_some better le hiff htot htrans l c w h
      have hfc : le f c :=
        (htot f c).resolve_right (fun h' => hb ((hiff f c).mpr h'))
      refine ⟨?_, hle, ?_⟩
      · rcases hm with rfl | hm
        · exact Or.inl rfl
        · exact Or.inr (List.mem_cons_of_mem _ hm)
      · intro g hg
        rcases List.mem_cons.mp hg with rfl | hg
        · exact htrans g c w hfc hle
        · exact hall g hg

theorem pickBetter_fold_none_some (better : FmtMap → FmtMap → Bool)
    (le : FmtMap → FmtMap → Prop)
    (hiff : ∀ a b, better a b = true ↔ le b a)
    (htot : ∀ a b, le a b ∨ le b a)
    (htrans : ∀ a b c, le a b → le b c → le a c) :
    ∀ (l : List FmtMap) (w : FmtMap),
      l.foldl (pickBetter better) none = some w →
      w ∈ l ∧ ∀ f ∈ l, le f w
  | [], w, h => by cases h
  | f :: l, w, h => by
    rw [List.foldl_cons, show pickBetter better none f = some f from rfl] at h
    obtain ⟨hm, hle, hall⟩ := pickBetter_fold_some better le hiff htot htrans l f w h
    refine ⟨?_, ?_⟩
    · rcases hm with rfl | hm
      · exact List.mem_cons_self _ _
      · exact List.mem_cons_of_mem _ hm
    · intro g hg
      rcases List.mem_cons.mp hg with rfl | hg
      · exact hle
      · exact hall g hg

theorem pickBetter_fold_ne_none (better : FmtMap → FmtMap → Bool) :
    ∀ (l : List FmtMap) (c : FmtMap),
      l.foldl (pickBetter better) (some c) ≠ none
  | [], c => by simp
  | f :: l, c => by
    rw [List.foldl_cons]
    by_cases hb : better f c
    · rw [show pickBetter better (some c) f = some f from by simp [pickBetter, hb]]
      exact pickBetter_fold_ne_none better l f
    · rw [show pickBetter better (some c) f = some c from by simp [pickBetter, hb]]
      exact pickBetter_fold_ne_none better l c

theorem pairLe_total (x y : Int × Int) : pairLe x y ∨ pairLe y x := by
  unfold pairLe
  omega

theorem pairLe_trans (x y z : Int × Int) : pairLe x y → pairLe y z → pairLe x z := by
  unfold pairLe
  omega

theorem tripLe_total (x y : Int × Int × Int) : tripLe x y ∨ tripLe y x := by
  unfold tripLe pairLe
  omega

theorem tripLe_trans (x y z : Int × Int × Int) :
    tripLe x y → tripLe y z → tripLe x z := by
  unfold tripLe pairLe
  omega

theorem audio_better_iff (a b : FmtMap) :
    isAudioFormatMapBetter a b = true ↔ audioLe b a := by
  simp only [isAudioFormatMapBetter, audioLe, pairLe, audioRank]
  split_ifs with h1 h2 <;> simp <;> omega

theorem video_better_iff (a b : FmtMap) :
    isVideoFormatMapBetter a b = true ↔ videoLe b a := by
  simp only [isVideoFormatMapBetter, videoLe, tripLe, pairLe, videoRank]
  split_ifs with h1 h2 h3 <;> simp <;> omega

theorem audioLe_total (a b : FmtMap) : audioLe a b ∨ audioLe b a :=
  pairLe_total _ _

theorem audioLe_trans (a b c : FmtMap) : audioLe a b → audioLe b c → audioLe a c :=
  pairLe_trans _ _ _

theorem videoLe_total (a b : FmtMap) : videoLe a b ∨ videoLe b a :=
  tripLe_total _ _

theorem videoLe_trans (a b c : FmtMap) : videoLe a b → videoLe b c → videoLe a c :=
  tripLe_trans _ _ _

theorem audioCands_append (l1 l2 : List GoVal) :
    audioCands (l1 ++ l2) = audioCands l1 ++ audioCands l2 := by
  unfold audioCands
  rw [List.filterMap_append, List.filter_append]

theorem videoCands_append (l1 l2 : List GoVal) :
    videoCands (l1 ++ l2) = videoCands l1 ++ videoCands l2 := by
  unfold videoCands
  rw [List.filterMap_append, List.filter_append]

theorem lookupB_audioByAsr (fmts : List GoVal) (k : GoStr) :
    lookupB (audioByAsr fmts) k =
      ((audioCands fmts).filter (fun f => audioKey f == k)).foldl
        (pickBetter isAudioFormatMapBetter) none := by
  rw [audioByAsr_eq, lookupB_bucketFold]
  rfl

theorem lookupB_videoByResolution (fmts : List GoVal) (k : GoStr) :
    lookupB (videoByResolution fmts) k =
      ((videoCands fmts).filter (fun f => videoKey f == k)).foldl
        (pickBetter isVideoFormatMapBetter) none := by
  rw [videoByResolution_eq, lookupB_bucketFold]
  rfl

/-- C3 counterexample: two pure-audio formats share the sample rate
    and every compared field (bitrate, file size) and differ only in
    their source id; the derived variant list keeps the SECOND one
    (source id 140), not the first seen (139) as the claim states. -/
theorem C3_counterexample :
    audioRank tiedAudioA = audioRank tiedAudioB ∧
    toAudioFormat tiedAudioA ≠ toAudioFormat tiedAudioB ∧
    isAudioFormatMapBetter tiedAudioB tiedAudioA = true ∧
    (extractOptimalFormats tiedRaw).1 =
      [{ formatID := gs "140", ext := gs "m4a", asr := 44100 }] := by decide

/-- C3 amended: the derived variant lists carry exactly the retained
    format of each (kind, discriminator) bucket; each bucket key
    occurs at most once; a survivor exists exactly when the bucket has
    a candidate; the survivor belongs to its bucket and ranks, in the
    order bitrate, then (for video) frame rate, then file size, at
    least as high as every bucket member; and a later candidate
    replaces the survivor exactly when it ranks at least as high —
    so a full tie keeps the LAST seen variant, not the first. -/
theorem C3_variant_selection_amended :
    (∀ rawInfo : FmtMap,
      (extractOptimalFormats rawInfo).1 =
        (audioByAsr (formatsOf rawInfo)).map (fun p => toAudioFormat p.2) ∧
      (extractOptimalFormats rawInfo).2 =
        (videoByResolution (formatsOf rawInfo)).map (fun p => toVideoFormat p.2)) ∧
    (∀ (fmts : List GoVal) (k : GoStr),
      ((audioByAsr fmts).filter (fun p => p.1 == k)).length ≤ 1 ∧
      ((videoByResolution fmts).filter (fun p => p.1 == k)).length ≤ 1) ∧
    (∀ (fmts : List GoVal) (k : GoStr),
      ((lookupB (audioByAsr fmts) k).isSome = true ↔
        (audioCands fmts).filter (fun f => audioKey f == k) ≠ []) ∧
      ((lookupB (videoByResolution fmts) k).isSome = true ↔
        (videoCands fmts).filter (fun f => videoKey f == k) ≠ [])) ∧
    (∀ (fmts : List GoVal) (k : GoStr) (w : FmtMap),
      lookupB (audioByAsr fmts) k = some w →
      w ∈ (audioCands fmts).filter (fun f => audioKey f == k) ∧
      ∀ f ∈ (audioCands fmts).filter (fun f => audioKey f == k), audioLe f w) ∧
    (∀ (fmts : List GoVal) (k : GoStr) (w : FmtMap),
      lookupB (videoByResolution fmts) k = some w →
      w ∈ (videoCands fmts).filter (fun f => videoKey f == k) ∧
      ∀ f ∈ (videoCands fmts).filter (fun f => videoKey f == k), videoLe f w) ∧
    (∀ (fmts : List GoVal) (f w : FmtMap),
      audioCand f = true →
      lookupB (audioByAsr fmts) (audioKey f) = some w →
      (audioLe w f →
        lookupB (audioByAsr (fmts ++ [.vobj f])) (audioKey f) = some f) ∧
      (¬audioLe w f →
        lookupB (audioByAsr (fmts ++ [.vobj f])) (audioKey f) = some w)) ∧
    (∀ (fmts : List GoVal) (f w : FmtMap),
      videoCand f = true →
      lookupB (videoByResolution fmts) (videoKey f) = some w →
      (videoLe w f →
        lookupB (videoByResolution (fmts ++ [.vobj f])) (videoKey f) = some f) ∧
      (¬videoLe w f →
        lookupB (videoByResolution (fmts ++ [.vobj f])) (videoKey f) = some w)) := by
  refine ⟨fun rawInfo => ⟨rfl, rfl⟩, ?_, ?_, ?_, ?_, ?_, ?_⟩
  · intro fmts k
    constructor
    · rw [audioByAsr_eq]
      exact filter_len_le_one _ Prod.fst k
        (nodupKeys_bucketFold _ _ _ [] (by simp))
    · rw [videoByResolution_eq]
      exact filter_len_le_one _ Prod.fst k
        (nodupKeys_bucketFold _ _ _ [] (by simp))
  · intro fmts k
    constructor
    · rw [lookupB_audioByAsr]
      cases hfil : (audioCands fmts).filter (fun f => audioKey f == k) with
      | nil => simp
      | cons f l =>
        rw [List.foldl_cons, show pickBetter isAudioFormatMapBetter none f = some f
          from rfl]
        constructor
        · intro _; simp
        · intro _
          cases hr : l.foldl (pickBetter isAudioFormatMapBetter) (some f) with
          | none => exact absurd hr (pickBetter_fold_ne_none _ l f)
          | some _ => rfl
    · rw [lookupB_videoByResolution]
      cases hfil : (videoCands fmts).filter (fun f => videoKey f == k) with
      | nil => simp
      | cons f l =>
        rw [List.foldl_cons, show pickBetter isVideoFormatMapBetter none f = some f
          from rfl]
        constructor
        · intro _; simp
        · intro _
          cases hr : l.foldl (pickBetter isVideoFormatMapBetter) (some f) with
          | none => exact absurd hr (pickBetter_fold_ne_none _ l f)
          | some _ => rfl
  · intro fmts k w h
    rw [lookupB_audioByAsr] at h
    exact pickBetter_fold_none_some _ audioLe audio_better_iff audioLe_total
      audioLe_trans _ w h
  · intro fmts k w h
    rw [lookupB_videoByResolution] at h
    exact pickBetter_fold_none_some _ videoLe video_better_iff videoLe_total
      videoLe_trans _ w h
  · intro fmts f w hc hw
    rw [lookupB_audioByAsr] at hw
    have hca : audioCands (fmts ++ [GoVal.vobj f]) = audioCands fmts ++ [f] := by
      rw [audioCands_append]
      simp [audioCands, hc]
    have hkey : lookupB (audioByAsr (fmts ++ [GoVal.vobj f])) (audioKey f) =
        pickBetter isAudioFormatMapBetter
          (((audioCands fmts).filter (fun g => audioKey g == audioKey f)).foldl
            (pickBetter isAudioFormatMapBetter) none) f := by
      rw [lookupB_audioByAsr, hca, List.filter_append, List.foldl_append]
      have hf1 : ([f].filter (fun g => audioKey g == audioKey f)) = [f] := by simp
      rw [hf1, List.foldl_cons, List.foldl_nil]
    rw [hkey, hw]
    constructor
    · intro hle
      simp [pickBetter, (audio_better_iff f w).mpr hle]
    · intro hle
      have hb : ¬ isAudioFormatMapBetter f w = true :=
        fun h' => hle ((audio_better_iff f w).mp h')
      simp [pickBetter, hb]
  · intro fmts f w hc hw
    rw [lookupB_videoByResolution] at hw
    have hca : videoCands (fmts ++ [GoVal.vobj f]) = videoCands fmts ++ [f] := by
      rw [videoCands_append]
      simp [videoCands, hc]
    have hkey : lookupB (videoByResolution (fmts ++ [GoVal.vobj f])) (videoKey f) =
        pickBetter isVideoFormatMapBetter
          (((videoCands fmts).filter (fun g => videoKey g == videoKey f)).foldl
            (pickBetter isVideoFormatMapBetter) none) f := by
      rw [lookupB_videoByResolution, hca, List.filter_append, List.foldl_append]
      have hf1 : ([f].filter (fun g => videoKey g == videoKey f)) = [f] := by simp
      rw [hf1, List.foldl_cons, List.foldl_nil]
    rw [hkey, hw]
    constructor
    · intro hle
      simp [pickBetter, (video_better_iff f w).mpr hle]
    · intro hle
      have hb : ¬ isVideoFormatMapBetter f w = true :=
        fun h' => hle ((video_better_iff f w).mp h')
      simp [pickBetter, hb]

/-- C3 witness: the survivor properties at a concrete one-element
    bucket, and the tie case where the later tied candidate replaces
    the survivor. -/
theorem C3_witness :
    (tiedAudioA ∈ (audioCands [GoVal.vobj tiedAudioA]).filter
        (fun g => audioKey g == audioKey tiedAudioA) ∧
      ∀ g ∈ (audioCands [GoVal.vobj tiedAudioA]).filter
        (fun g => audioKey g == audioKey tiedAudioA), audioLe g tiedAudioA) ∧
    lookupB (audioByAsr ([GoVal.vobj tiedAudioA] ++ [GoVal.vobj tiedAudioB]))
      (audioKey tiedAudioB) = some tiedAudioB := by
  refine ⟨?_, ?_⟩
  · exact C3_variant_selection_amended.2.2.2.1 [GoVal.vobj tiedAudioA]
      (audioKey tiedAudioA) tiedAudioA rfl
  · exact (C3_variant_selection_amended.2.2.2.2.2.1 [GoVal.vobj tiedAudioA]
      tiedAudioB tiedAudioA (by decide) rfl).1 (by decide)

end YTT
